import Mathlib

/-!
# DocuSync — verification of the webhook decision and idempotency engine

Shallow embedding of the core of the DocuSync repository
(`src/backend/agents/`): the change-signal extractor and documentation
classifier (`commit_watcher_agent.py`, `github_client.py`), the loop
guard and webhook dispatcher (`webhook_server_integrated.py`), the
content generator with its fallback, the LLM output extraction
(`readme_updater_agent.py`, `github_bot_agent.py`) and the README
section merge.

Python strings are modelled as `List Char` (`Str`); Python `dict`
payloads are modelled as structures holding exactly the fields the
embedded functions read; Python `None` is `Option.none`; exceptions in
fallible helpers are explicit constructors.  Python float confidence
scores are modelled as `ℚ`: every score reachable in the source is a
sum of 0.5 with a subset of 0.3/0.2/0.1 (clamped at 1.0), and each of
those IEEE-double sums compares to the thresholds 0.5/0.6/0.7/0.8
exactly as the rational sum does, so the rational model is faithful for
every comparison the code performs.
-/

namespace DocuSync

/-- Python strings, modelled as lists of characters. -/
abbrev Str := List Char

/-- Coerce a Lean string literal into the model type. -/
def strOf (s : String) : Str := s.toList

/-- `isPre p s` is true when `p` is a prefix of `s` (Python `startswith`). -/
def isPre : Str → Str → Bool
  | [], _ => true
  | _ :: _, [] => false
  | a :: as, b :: bs => a == b && isPre as bs

/-- Python substring test `pat in s`. -/
def hasSub (pat : Str) : Str → Bool
  | [] => isPre pat []
  | c :: cs => isPre pat (c :: cs) || hasSub pat cs

/-- Python `s.startswith(p)`. -/
def strStarts (s p : Str) : Bool := isPre p s

/-- Python `s.endswith(p)`. -/
def strEnds (s p : Str) : Bool := isPre p.reverse s.reverse

/-- Python `s.endswith((p1, p2, ...))`: any of several suffixes. -/
def endsAny (s : Str) (sufs : List Str) : Bool := sufs.any (fun suf => strEnds s suf)

/-- Python `s.lower()` (ASCII case folding, as used by the source on code text). -/
def lowerStr (s : Str) : Str := s.map Char.toLower

/-- Python `str(n)` for a non-negative integer. -/
def natStr (n : Nat) : Str := (Nat.repr n).toList

/-- Characters removed by Python `str.strip()`. -/
def isPySpace (c : Char) : Bool :=
  c == ' ' || c == '\t' || c == '\n' || c == '\r' || c == Char.ofNat 11 || c == Char.ofNat 12

/-- Python `s.strip()`. -/
def pyStrip (s : Str) : Str :=
  ((s.dropWhile isPySpace).reverse.dropWhile isPySpace).reverse

/-!
## Change-Signal Extractor and Documentation-Requirement Classifier

From `src/backend/agents/commit_watcher_agent.py` and
`src/backend/agents/github_client.py`.
-/

/-- One element of the GitHub changed-file list: the fields the embedded
functions read (`filename`, `patch`, `additions`, `deletions`). -/
structure FileChange where
  filename : Str
  patch : Str
  additions : Nat
  deletions : Nat

/-- The `api_indicators` list of `CommitWatcherAgent._is_api_file`; the first
five are matched against the filename, the rest against the patch body. -/
def apiIndicators : List Str :=
  [strOf "api", strOf "endpoint", strOf "route", strOf "controller", strOf "service",
   strOf "def ", strOf "function ", strOf "class ", strOf "interface ", strOf "@app.route",
   strOf "router.", strOf "express.", strOf "fastapi"]

/-- `CommitWatcherAgent._is_api_file`: substring match of the first five
indicators against `filename.lower()`, of the rest against `patch.lower()`. -/
def is_api_file (filename patch : Str) : Bool :=
  (apiIndicators.take 5).any (fun ind => hasSub ind (lowerStr filename)) ||
  (apiIndicators.drop 5).any (fun ind => hasSub ind (lowerStr patch))

/-- The five buckets of `CommitWatcherAgent.extract_pr_changes`. -/
inductive Category
  | api | config | documentation | test | other
  deriving DecidableEq, Repr

/-- The first-match-wins category of a changed file, factored out of the
`if/elif` chain in `CommitWatcherAgent.extract_pr_changes` (lines 163-197):
api beats config (`.json .yaml .yml .toml .ini`) beats documentation
(`.md .rst .txt`) beats test (filename contains `test`, case-insensitive)
beats other. -/
def fileCategory (f : FileChange) : Category :=
  if is_api_file f.filename f.patch then .api
  else if endsAny f.filename [strOf ".json", strOf ".yaml", strOf ".yml", strOf ".toml", strOf ".ini"] then .config
  else if endsAny f.filename [strOf ".md", strOf ".rst", strOf ".txt"] then .documentation
  else if hasSub (strOf "test") (lowerStr f.filename) then .test
  else .other

/-- The record appended to a bucket by `extract_pr_changes`:
`{"file": …, "type": …, "additions": …, "deletions": …}`. -/
structure ChangeEntry where
  file : Str
  type : Str
  additions : Nat
  deletions : Nat
  deriving DecidableEq

/-- Output of `extract_pr_changes`: the five bucket lists. -/
structure PrChanges where
  api_changes : List ChangeEntry
  config_changes : List ChangeEntry
  documentation_changes : List ChangeEntry
  test_changes : List ChangeEntry
  other_changes : List ChangeEntry
  deriving DecidableEq

/-- Bucket record for one file. -/
def toEntry (f : FileChange) (t : String) : ChangeEntry :=
  ⟨f.filename, strOf t, f.additions, f.deletions⟩

/-- The loop body of `extract_pr_changes`: send one file to the bucket
selected by the `if/elif` chain. -/
def consBucket (f : FileChange) (r : PrChanges) : PrChanges :=
  if is_api_file f.filename f.patch then
    { r with api_changes := toEntry f "api" :: r.api_changes }
  else if endsAny f.filename [strOf ".json", strOf ".yaml", strOf ".yml", strOf ".toml", strOf ".ini"] then
    { r with config_changes := toEntry f "config" :: r.config_changes }
  else if endsAny f.filename [strOf ".md", strOf ".rst", strOf ".txt"] then
    { r with documentation_changes := toEntry f "documentation" :: r.documentation_changes }
  else if hasSub (strOf "test") (lowerStr f.filename) then
    { r with test_changes := toEntry f "test" :: r.test_changes }
  else
    { r with other_changes := toEntry f "other" :: r.other_changes }

/-- `CommitWatcherAgent.extract_pr_changes`: walk the changed files in order
and append each to the bucket selected by the `if/elif` chain. -/
def extract_pr_changes : List FileChange → PrChanges
  | [] => ⟨[], [], [], [], []⟩
  | f :: fs => consBucket f (extract_pr_changes fs)

/-- Output of `GitHubClient._analyze_file_changes` (the fields read
downstream; the `file_types` extension histogram is not read by the
classifier and is omitted). -/
structure FileAnalysis where
  total_files : Nat
  documentation_files : List Str
  code_files : List Str
  config_files : List Str
  test_files : List Str

/-- `GitHubClient._analyze_file_changes`: a separate `if/elif` bucketing
(documentation first, then code, config, test); files matching no branch are
counted but listed nowhere. -/
def analyze_file_changes (files : List FileChange) : FileAnalysis :=
  { total_files := files.length
    documentation_files :=
      (files.filter (fun f => endsAny f.filename
        [strOf ".md", strOf ".rst", strOf ".txt", strOf ".adoc"])).map (·.filename)
    code_files :=
      (files.filter (fun f =>
        !endsAny f.filename [strOf ".md", strOf ".rst", strOf ".txt", strOf ".adoc"] &&
        endsAny f.filename [strOf ".py", strOf ".js", strOf ".ts", strOf ".java",
          strOf ".go", strOf ".rs", strOf ".cpp", strOf ".c"])).map (·.filename)
    config_files :=
      (files.filter (fun f =>
        !endsAny f.filename [strOf ".md", strOf ".rst", strOf ".txt", strOf ".adoc"] &&
        !endsAny f.filename [strOf ".py", strOf ".js", strOf ".ts", strOf ".java",
          strOf ".go", strOf ".rs", strOf ".cpp", strOf ".c"] &&
        endsAny f.filename [strOf ".json", strOf ".yaml", strOf ".yml", strOf ".toml",
          strOf ".ini", strOf ".cfg"])).map (·.filename)
    test_files :=
      (files.filter (fun f =>
        !endsAny f.filename [strOf ".md", strOf ".rst", strOf ".txt", strOf ".adoc"] &&
        !endsAny f.filename [strOf ".py", strOf ".js", strOf ".ts", strOf ".java",
          strOf ".go", strOf ".rs", strOf ".cpp", strOf ".c"] &&
        !endsAny f.filename [strOf ".json", strOf ".yaml", strOf ".yml", strOf ".toml",
          strOf ".ini", strOf ".cfg"] &&
        (hasSub (strOf "test") (lowerStr f.filename) ||
         endsAny f.filename [strOf ".test.js", strOf ".test.py", strOf "_test.py"]))).map (·.filename) }

/-- Output of `GitHubClient._assess_documentation_impact` (the coarse
diff-keyword scan). -/
structure DocImpact where
  requires_doc_update : Bool
  impact_level : Str
  reasons : List Str
  suggested_actions : List Str

/-- The coarse diff-scan keyword list of `_assess_documentation_impact`. -/
def coarseKeywords : List Str :=
  [strOf "def ", strOf "function ", strOf "class ", strOf "interface ",
   strOf "endpoint", strOf "route"]

/-- The coarse diff scan `if diff and any(keyword in diff.lower() ...)`:
`diff` may be `None`, and an empty diff is falsy. -/
def diffHasCoarseKeyword (diff : Option Str) : Bool :=
  match diff with
  | none => false
  | some d => !d.isEmpty && coarseKeywords.any (fun k => hasSub k (lowerStr d))

/-- `GitHubClient._assess_documentation_impact`.  `diff` is `None`able and an
empty diff is falsy; the three `if` blocks assign `impact_level` in sequence,
so a later `medium` overwrites an earlier `high`. -/
def assess_documentation_impact (files : List FileChange) (diff : Option Str) : DocImpact :=
  let apiHit := diffHasCoarseKeyword diff
  let configChanged := files.any (fun f =>
    endsAny f.filename [strOf ".json", strOf ".yaml", strOf ".yml", strOf ".toml"])
  let readmeChanged := files.any (fun f => hasSub (strOf "readme") (lowerStr f.filename))
  let level1 := if apiHit then strOf "high" else strOf "low"
  let level2 := if configChanged then strOf "medium" else level1
  let level3 := if readmeChanged then strOf "medium" else level2
  { requires_doc_update := apiHit || configChanged
    impact_level := level3
    reasons :=
      (if apiHit then [strOf "API or function definitions changed"] else []) ++
      (if configChanged then [strOf "Configuration files modified"] else []) ++
      (if readmeChanged then [strOf "README or documentation files directly modified"] else [])
    suggested_actions :=
      (if apiHit then [strOf "Update API documentation"] else []) ++
      (if configChanged then [strOf "Update configuration documentation"] else []) }

/-- The classifier's result record (`_determine_documentation_requirements`). -/
structure DocRequirement where
  requires_update : Bool
  confidence_score : ℚ
  impact_level : Str
  reasons : List Str
  suggested_actions : List Str

/-- `CommitWatcherAgent._determine_documentation_requirements`: base
confidence 0.5, +0.3 for a code-extension file among `code_files`, +0.2 for
any config file, +0.1 for any documentation file; `requires_update` is the
coarse scan's flag OR score > 0.6; the stored score is clamped at 1.0. -/
def determine_documentation_requirements (impact : DocImpact) (fa : FileAnalysis) : DocRequirement :=
  let codeHit := fa.code_files.any (fun f =>
    endsAny f [strOf ".py", strOf ".js", strOf ".ts", strOf ".java"])
  let conf2 : ℚ := if codeHit then 0.5 + 0.3 else 0.5
  let conf3 : ℚ := if !fa.config_files.isEmpty then conf2 + 0.2 else conf2
  let conf4 : ℚ := if !fa.documentation_files.isEmpty then conf3 + 0.1 else conf3
  let actions :=
    (if codeHit then [strOf "Review code changes for API documentation updates"] else []) ++
    (if !fa.config_files.isEmpty then [strOf "Update configuration documentation"] else []) ++
    (if !fa.documentation_files.isEmpty then [strOf "Review documentation changes for consistency"] else [])
  { requires_update := impact.requires_doc_update || decide (conf4 > 0.6)
    confidence_score := min conf4 1
    impact_level := impact.impact_level
    reasons := impact.reasons
    suggested_actions := if !actions.isEmpty then actions else impact.suggested_actions }

/-- `CommitWatcherAgent._calculate_priority`. -/
def calculate_priority (d : DocRequirement) : Str :=
  if !d.requires_update then strOf "none"
  else if d.impact_level == strOf "high" && decide (d.confidence_score > 0.8) then strOf "critical"
  else if d.impact_level == strOf "high" || decide (d.confidence_score > 0.7) then strOf "high"
  else if d.impact_level == strOf "medium" || decide (d.confidence_score > 0.5) then strOf "medium"
  else strOf "low"

/-- The classifier pipeline as wired in `analyze_pr_webhook`: file analysis
and coarse impact from `analyze_pr_changes`, then
`_determine_documentation_requirements`, then `_calculate_priority`. -/
def analyze_pipeline (files : List FileChange) (diff : Option Str) : DocRequirement × Str :=
  let fa := analyze_file_changes files
  let di := assess_documentation_impact files diff
  let d := determine_documentation_requirements di fa
  (d, calculate_priority d)

/-!
## Loop-Guard and Webhook Dispatcher

From `src/backend/agents/webhook_server_integrated.py`.
-/

/-- `verify_signature(payload_body, signature_header)`: a missing or empty
signature header, or an empty configured secret, skips verification and
returns `True`; otherwise `"sha256=" + HMAC-SHA256(secret, body)` is compared
with the header.  The HMAC itself is an opaque external computation, passed in
as `hmacHex`. -/
def verify_signature (hmacHex : Str → Str → Str) (secret : Str)
    (payloadBody : Str) (signatureHeader : Option Str) : Bool :=
  match signatureHeader with
  | none => true
  | some sig =>
    if sig.isEmpty || secret.isEmpty then true
    else (strOf "sha256=" ++ hmacHex secret payloadBody) == sig

/-- Outcome of the GitHub "commit files" fetch performed by
`check_commit_files_changed`: a 200 response carrying the changed filenames,
a non-200 response, or a raised exception. -/
inductive FetchResult
  | ok (filenames : List Str)
  | httpErr
  | exc
  deriving DecidableEq

/-- `check_commit_files_changed`: returns the filenames on a 200 response and
`[]` both on a non-200 status and when the request raises. -/
def check_commit_files_changed (result : FetchResult) : List Str :=
  match result with
  | .ok filenames => filenames
  | .httpErr => []
  | .exc => []

/-- The `pull_request` object of a webhook payload: the fields the server
reads (`number`, `head.sha`). -/
structure PRInfo where
  number : Option Nat
  headSha : Option Str

/-- A parsed webhook payload: the fields `should_ignore_webhook` and the
handler read.  `pullRequest = none` models a payload without a
`pull_request` key; `repoFullName` is `payload.get('repository', {}).get('full_name', '')`
and `action` is `payload.get('action', '')`. -/
structure WebhookPayload where
  hasRepository : Bool
  repoFullName : Str
  action : Str
  pullRequest : Option PRInfo

/-- The process-wide `recent_pr_updates` map, as an association list from
`"{repo_full_name}/{pr_number}"` keys to last-processed timestamps
(seconds). -/
abbrev LoopGuardState := List (Str × Nat)

/-- First-match association-list lookup (Python dict access). -/
def lookupTs (key : Str) : LoopGuardState → Option Nat
  | [] => none
  | (k, t) :: rest => if k == key then some t else lookupTs key rest

/-- `cleanup_old_pr_updates`: drop every entry whose timestamp is more than
600 seconds (10 minutes) old. -/
def cleanup_old_pr_updates (st : LoopGuardState) (now : Nat) : LoopGuardState :=
  st.filter (fun e => !decide (now - e.2 > 600))

/-- Python `repo_full_name.split('/')` in a 2-tuple unpacking: succeeds with
the two halves when the string has exactly one `/`, raises `ValueError`
otherwise (modelled as `none`). -/
def splitOwnerRepo (s : Str) : Option (Str × Str) :=
  match s.splitOn '/' with
  | [owner, repo] => some (owner, repo)
  | _ => none

/-- The documentation-path patterns of `should_ignore_webhook`; each is
matched as a substring of the lowercased filename. -/
def docPatterns : List Str :=
  [strOf "readme.md", strOf "readme.rst", strOf "readme.txt",
   strOf "docs/", strOf "documentation/", strOf ".md"]

/-- A filename matches the loop guard's documentation heuristic. -/
def isDocFilename (f : Str) : Bool :=
  docPatterns.any (fun pat => hasSub pat (lowerStr f))

/-- `should_ignore_webhook(payload)`: purge stale loop-guard entries, drop
the event when the same `(repo, pr)` key was processed under 180 seconds ago,
and for `synchronize` events drop it when the head commit's fetched file list
is non-empty and contains only documentation-pattern filenames.  The
`try/except` around the synchronize check is modelled by the `Option`-valued
`splitOwnerRepo` (its `ValueError` is the raise site inside the block); the
fetch's own failures are already absorbed by `check_commit_files_changed`.
Returns the decision together with the state as mutated by the cleanup. -/
def should_ignore_webhook (st : LoopGuardState) (now : Nat) (fetch : FetchResult)
    (payload : WebhookPayload) : Bool × LoopGuardState :=
  let st1 := cleanup_old_pr_updates st now
  match payload.pullRequest with
  | none => (false, st1)
  | some pr =>
    match pr.number with
    | none => (false, st1)
    | some n =>
      if payload.repoFullName.isEmpty then (false, st1)
      else
        let prKey := payload.repoFullName ++ strOf "/" ++ natStr n
        let recent := match lookupTs prKey st1 with
          | some t => decide (now - t < 180)
          | none => false
        if recent then (true, st1)
        else if payload.action == strOf "synchronize" then
          match splitOwnerRepo payload.repoFullName with
          | none => (false, st1)
          | some _ =>
            match pr.headSha with
            | none => (false, st1)
            | some _ =>
              let changedFiles := check_commit_files_changed fetch
              if !changedFiles.isEmpty then
                let nonDocFiles := changedFiles.filter (fun f => !isDocFilename f)
                if nonDocFiles.isEmpty then (true, st1) else (false, st1)
              else (false, st1)
        else (false, st1)

/-- The record step of `process_webhook_async` (line 200): store the current
timestamp under the PR key before the pipeline runs. -/
def recordProcessing (st : LoopGuardState) (key : Str) (now : Nat) : LoopGuardState :=
  (key, now) :: st.filter (fun e => !(e.1 == key))

/-- The HTTP response of the `/webhook` route: status code, and whether a
background processing thread was started. -/
structure HandlerResult where
  status : Nat
  processingStarted : Bool
  deriving DecidableEq

/-- The `github_webhook` route handler: 401 when `verify_signature` fails,
400 when the JSON body does not parse (`parsed = none`), otherwise 200 —
spawning the background processing thread exactly when the payload has a
`repository` key and the event type is `pull_request`. -/
def github_webhook (hmacHex : Str → Str → Str) (secret : Str) (rawBody : Str)
    (signatureHeader : Option Str) (eventType : Str)
    (parsed : Option WebhookPayload) : HandlerResult :=
  if !verify_signature hmacHex secret rawBody signatureHeader then ⟨401, false⟩
  else match parsed with
    | none => ⟨400, false⟩
    | some payload =>
      ⟨200, payload.hasRepository && eventType == strOf "pull_request"⟩

/-!
## LLM response values and output extraction

From `ReadmeUpdaterAgent._extract_llm_output` and
`GitHubBotAgent._extract_llm_output`.
-/

/-- A Python value of the shapes the LLM plumbing passes around: a string or
a (possibly nested) dict. -/
inductive LLMVal where
  | s (v : Str)
  | d (entries : List (Str × LLMVal))

/-- An ASCII apostrophe character. -/
def quoteCh : Char := Char.ofNat 39

/-- An opening curly brace character. -/
def openBr : Char := Char.ofNat 123

/-- A closing curly brace character. -/
def closeBr : Char := Char.ofNat 125

mutual

/-- Python `repr` of an `LLMVal` (string escaping elided: the embedded
values never contain quotes). -/
def pyRepr : LLMVal → Str
  | .s v => quoteCh :: v ++ [quoteCh]
  | .d es => openBr :: pyReprEntries es ++ [closeBr]

/-- `repr` of dict entries, comma-separated. -/
def pyReprEntries : List (Str × LLMVal) → Str
  | [] => []
  | [(k, v)] => (quoteCh :: k ++ [quoteCh]) ++ strOf ": " ++ pyRepr v
  | (k, v) :: rest =>
    (quoteCh :: k ++ [quoteCh]) ++ strOf ": " ++ pyRepr v ++ strOf ", " ++ pyReprEntries rest

end

/-- Python `str()` of an `LLMVal`: a string is itself, a dict prints as its
`repr`. -/
def pyStr : LLMVal → Str
  | .s v => v
  | .d es => pyRepr (.d es)

/-- Python truthiness of an `LLMVal`: non-empty string or non-empty dict. -/
def truthyV : LLMVal → Bool
  | .s v => !v.isEmpty
  | .d es => !es.isEmpty

/-- Python dict key lookup. -/
def lookupKey (k : Str) : List (Str × LLMVal) → Option LLMVal
  | [] => none
  | (k', v) :: rest => if k' == k then some v else lookupKey k rest

/-- The nested-dict key list `['text', 'content', 'message', 'output']`,
shared by both `_extract_llm_output` implementations. -/
def nestedKeys : List Str := [strOf "text", strOf "content", strOf "message", strOf "output"]

/-- First key of `ks` that is present in `es` with a truthy value
(the `if nested_key in value and value[nested_key]` scan). -/
def firstTruthy (es : List (Str × LLMVal)) : List Str → Option LLMVal
  | [] => none
  | k :: ks =>
    match lookupKey k es with
    | some v => if truthyV v then some v else firstTruthy es ks
    | none => firstTruthy es ks

/-- What `_extract_llm_output` does with a truthy value found under a key:
a dict is probed one level under `nestedKeys` and stringified as a whole if
none hits; anything else is stringified directly. -/
def handleValue (v : LLMVal) : Str :=
  match v with
  | .d es =>
    match firstTruthy es nestedKeys with
    | some nv => pyStr nv
    | none => pyStr v
  | .s _ => pyStr v

/-- The `for key in possible_keys` loop: first key present with a truthy
value wins. -/
def tryKeys (es : List (Str × LLMVal)) : List Str → Option Str
  | [] => none
  | k :: ks =>
    match lookupKey k es with
    | some v => if truthyV v then some (handleValue v) else tryKeys es ks
    | none => tryKeys es ks

/-- `possible_keys` of `GitHubBotAgent._extract_llm_output` (8 keys). -/
def botKeys : List Str :=
  [strOf "output", strOf "result", strOf "text", strOf "response",
   strOf "generated_text", strOf "content", strOf "message", strOf "data"]

/-- `possible_keys` of `ReadmeUpdaterAgent._extract_llm_output` (6 keys:
no `message`, no `data`). -/
def readmeKeys : List Str :=
  [strOf "output", strOf "result", strOf "text", strOf "response",
   strOf "generated_text", strOf "content"]

/-- `GitHubBotAgent._extract_llm_output`: `None`/falsy input returns `None`;
a string is returned directly; a dict is probed under `botKeys` with one
level of nesting; otherwise the whole (truthy) value is stringified. -/
def extract_llm_output_bot (r : Option LLMVal) : Option Str :=
  match r with
  | none => none
  | some x =>
    if !truthyV x then none
    else match x with
      | .s v => some v
      | .d es =>
        match tryKeys es botKeys with
        | some out => some out
        | none => some (pyStr x)

/-- `ReadmeUpdaterAgent._extract_llm_output`: same shape as the bot agent's
version but probing only `readmeKeys`. -/
def extract_llm_output_readme (r : Option LLMVal) : Option Str :=
  match r with
  | none => none
  | some x =>
    if !truthyV x then none
    else match x with
      | .s v => some v
      | .d es =>
        match tryKeys es readmeKeys with
        | some out => some out
        | none => some (pyStr x)

/-!
## Content Generator

From `generate_ai_documentation_with_gemini` and
`generate_ai_comment_fallback` in `webhook_server_integrated.py`.
-/

/-- The fields of the `pr_analysis` dict read by the generator and the
README updater.  `suggestedActions = none` models an absent
`suggested_actions` key (the fallback then substitutes its default list). -/
structure PRAnalysis where
  repository : Str
  prNumber : Nat
  priority : Str
  requiresDocumentation : Bool
  filesChanged : Nat
  suggestedActions : Option (List Str)

/-- Python `str.title()` (ASCII): uppercase a letter that follows a
non-letter, lowercase the rest. -/
def pyTitleGo : Bool → Str → Str
  | _, [] => []
  | prevAlpha, c :: cs =>
    let c' := if c.isAlpha then (if prevAlpha then c.toLower else c.toUpper) else c
    c' :: pyTitleGo c.isAlpha cs

/-- Python `s.title()`. -/
def pyTitle (s : Str) : Str := pyTitleGo false s

/-- `sep.join(items)`. -/
def joinWith (sep : Str) : List Str → Str
  | [] => []
  | [x] => x
  | x :: xs => x ++ sep ++ joinWith sep xs

/-- `pr_analysis.get('suggested_actions', [...])` as used by the fallback. -/
def fallbackActions (pa : PRAnalysis) : List Str :=
  match pa.suggestedActions with
  | some acts => acts
  | none => [strOf "Update relevant documentation sections", strOf "Review API changes",
             strOf "Verify code examples"]

/-- The `chr(10).join(f"• {action}" ...)` bullet list of the fallback. -/
def bulletList (acts : List Str) : Str :=
  joinWith (strOf "\n") (acts.map (fun a => strOf "• " ++ a))

/-- The `requires_docs` branch of `generate_ai_comment_fallback`. -/
def fallbackCommentYes (pa : PRAnalysis) : Str :=
  strOf "## 🤖 DocuSync AI Analysis\n\n### 📊 Technical Change Assessment\nThis pull request has been automatically analyzed and contains changes that impact documentation.\n\n**Analysis Summary:**\n- **Impact Priority**: " ++
  pyTitle pa.priority ++
  strOf "\n- **Files Modified**: " ++ natStr pa.filesChanged ++
  strOf "\n- **Documentation Updates Required**: ✅ Yes\n\n### 🔧 Documentation Requirements\nBased on the automated code analysis, the following documentation updates are recommended:\n\n" ++
  bulletList (fallbackActions pa) ++
  strOf "\n\n### 🎯 Implementation Guidance\n1. **Code Review**: Examine changes for new public APIs or modified interfaces\n2. **Documentation Updates**: Update affected documentation sections\n3. **Example Validation**: Test and update code examples as needed\n4. **Changelog Updates**: Document user-facing changes\n\n### ⚡ Action Items\n- [ ] Update README.md with new feature descriptions\n- [ ] Refresh API documentation for modified endpoints\n- [ ] Validate existing code examples still work\n- [ ] Update configuration guides if settings changed\n\n*Generated by DocuSync AI - Automated documentation analysis*"

/-- The maintenance branch of `generate_ai_comment_fallback` (no
suggested-actions list in this branch). -/
def fallbackCommentNo (pa : PRAnalysis) : Str :=
  strOf "## 🤖 DocuSync AI Analysis\n\n### 📊 Technical Change Assessment\nThis pull request has been automatically analyzed and appears to be maintenance-focused.\n\n**Analysis Summary:**\n- **Impact Priority**: " ++
  pyTitle pa.priority ++
  strOf "\n- **Files Modified**: " ++ natStr pa.filesChanged ++
  strOf "\n- **Documentation Updates Required**: ✅ Minimal or none needed\n\n### 🎯 Change Classification\nThe modifications in this PR appear to be:\n- Internal refactoring or code improvements\n- Bug fixes that don" ++
  [quoteCh] ++
  strOf "t affect public interfaces\n- Maintenance updates with contained scope\n\n### ✨ Quality Assessment\nThis PR demonstrates good development practices with focused, contained changes. No significant documentation updates are required based on the automated analysis.\n\n*Generated by DocuSync AI - Automated documentation analysis*"

/-- `generate_ai_comment_fallback`: the deterministic templated comment,
wrapped as `{"output": comment}`. -/
def generate_ai_comment_fallback (pa : PRAnalysis) : LLMVal :=
  .d [(strOf "output",
       .s (if pa.requiresDocumentation then fallbackCommentYes pa else fallbackCommentNo pa))]

/-- Outcome of the Gemini `model.generate_content(prompt)` call: it raises,
or returns a response whose `.text` may be absent/`None`. -/
inductive GeminiCall
  | raises
  | returns (text : Option Str)
  deriving DecidableEq

/-- `generate_ai_documentation_with_gemini`: with no API key, a raised call,
or a falsy response text, fall back to the template; otherwise wrap the
response text as `{"output": text}`. -/
def generate_ai_documentation_with_gemini (googleApiKey : Str) (call : GeminiCall)
    (pa : PRAnalysis) : LLMVal :=
  if googleApiKey.isEmpty then generate_ai_comment_fallback pa
  else match call with
    | .raises => generate_ai_comment_fallback pa
    | .returns none => generate_ai_comment_fallback pa
    | .returns (some t) =>
      if t.isEmpty then generate_ai_comment_fallback pa
      else .d [(strOf "output", .s t)]

/-!
## README Write-Back: section merge

From `ReadmeUpdaterAgent._generate_enhanced_readme`,
`_insert_documentation_section` and `_generate_default_insights`.

The source file `readme_updater_agent.py` stores its emoji literals
mojibake-encoded (UTF-8 bytes re-decoded as Latin-1 text); the constants
below reproduce the characters actually present in the Python string
literals, codepoint for codepoint.
-/

/-- The mojibake rendering of 📚 in the source file. -/
def emojiBooks : Str := [Char.ofNat 0xF0, Char.ofNat 0x178, Char.ofNat 0x201C, Char.ofNat 0x161]

/-- The mojibake rendering of 🤖 in the source file. -/
def emojiRobot : Str := [Char.ofNat 0xF0, Char.ofNat 0x178, Char.ofNat 0xA4, Char.ofNat 0x2013]

/-- The mojibake rendering of 🔍 in the source file. -/
def emojiLens : Str := [Char.ofNat 0xF0, Char.ofNat 0x178, Char.ofNat 0x201D]

/-- The mojibake rendering of 📊 in the source file. -/
def emojiChart : Str := [Char.ofNat 0xF0, Char.ofNat 0x178, Char.ofNat 0x201C, Char.ofNat 0x160]

/-- The mojibake rendering of 🎯 in the source file. -/
def emojiTarget : Str := [Char.ofNat 0xF0, Char.ofNat 0x178, Char.ofNat 0x17D, Char.ofNat 0xAF]

/-- The mojibake rendering of ✨ in the source file. -/
def emojiSparkle : Str := [Char.ofNat 0xE2, Char.ofNat 0x153, Char.ofNat 0xA8]

/-- Python `content.split('\n')`. -/
def splitLinesCh : Str → List Str
  | [] => [[]]
  | c :: cs =>
    if c = '\n' then [] :: splitLinesCh cs
    else
      match splitLinesCh cs with
      | [] => [[c]]
      | l :: ls => (c :: l) :: ls

/-- Python `'\n'.join(lines)`. -/
def joinLines (lines : List Str) : Str := joinWith (strOf "\n") lines

/-- The plain search phrase of `_insert_documentation_section`. -/
def docPhrase : Str := strOf "Recent Documentation Updates"

/-- The emoji-prefixed search phrase (second disjunct of the section test). -/
def docPhraseEmoji : Str := emojiBooks ++ strOf " Recent Documentation Updates"

/-- The section test of `_insert_documentation_section` line 236. -/
def lineHasPhrase (l : Str) : Bool := hasSub docPhrase l || hasSub docPhraseEmoji l

/-- The heading line the generated section starts with. -/
def sectionHeading : Str := strOf "## " ++ emojiBooks ++ strOf " Recent Documentation Updates"

/-- The attribution footer sentinel line. -/
def footerLine : Str :=
  strOf "*" ++ emojiRobot ++
  strOf " This documentation update was automatically generated by DocuSync AI*"

/-- Index of the first line containing the section phrase
(`for i, line in enumerate(lines)` at line 235). -/
def findSectionFrom : List Str → Nat → Option Nat
  | [], _ => none
  | l :: ls, i => if lineHasPhrase l then some i else findSectionFrom ls (i + 1)

/-- The inner `for j in range(i + 1, len(lines))` scan for the section end:
stop before a `## ` heading after `i + 1`, or just past the footer sentinel;
`j` falls off the end as `len(lines)`. -/
def findEndGo (i : Nat) : List Str → Nat → Nat
  | [], j => j
  | l :: ls, j =>
    if strStarts l (strOf "## ") && decide (j > i + 1) then j
    else if pyStrip l == footerLine then j + 1
    else findEndGo i ls (j + 1)

/-- `end_idx` for a section whose heading sits at index `i`. -/
def findEnd (lines : List Str) (i : Nat) : Nat := findEndGo i (lines.drop (i + 1)) (i + 1)

/-- The inner scan of the insert branch: from `i + 1`, the first line
starting with `#`, or the last index, becomes the insert position. -/
def innerScanIns (total : Nat) : List Str → Nat → Nat
  | [], _ => total
  | l :: ls, j =>
    if strStarts l (strOf "#") || j == total - 1 then j else innerScanIns total ls (j + 1)

/-- The outer scan of the insert branch: a `# ` heading at `i > 0` defers to
the inner scan; a `## ` heading at `i > 2` becomes the insert position; the
default is `len(lines)`. -/
def outerScanIns (lines : List Str) (total : Nat) : List Str → Nat → Nat
  | [], _ => total
  | l :: ls, i =>
    if strStarts l (strOf "# ") && decide (i > 0) then innerScanIns total (lines.drop (i + 1)) (i + 1)
    else if strStarts l (strOf "## ") && decide (i > 2) then i
    else outerScanIns lines total ls (i + 1)

/-- The insert position used when no existing section is found. -/
def insertIdx (lines : List Str) : Nat := outerScanIns lines lines.length lines 0

/-- `_insert_documentation_section`, at the level of line lists: replace the
span of an existing section (widened to a preceding blank line), or insert
the new section block at the computed position. -/
def insertDocLines (lines secLines : List Str) : List Str :=
  match findSectionFrom lines 0 with
  | some i =>
    let start := if decide (i > 0) && pyStrip (lines.getD (i - 1) []) == ([] : Str) then i - 1 else i
    let endI := findEnd lines i
    lines.take start ++ secLines ++ lines.drop endI
  | none =>
    let k := insertIdx lines
    lines.take k ++ secLines ++ lines.drop k

/-- `_insert_documentation_section` on strings: split, splice, re-join. -/
def insert_documentation_section (content docSection : Str) : Str :=
  joinLines (insertDocLines (splitLinesCh content) (splitLinesCh docSection))

/-- The `### PR #… - AI-Enhanced Documentation (…)` line. -/
def prLine (prNumber timestamp : Str) : Str :=
  strOf "### PR #" ++ prNumber ++ strOf " - AI-Enhanced Documentation (" ++ timestamp ++ strOf ")"

/-- The `documentation_section` f-string of `_generate_enhanced_readme`
(lines 208-219): leading and trailing blank lines, heading, PR line,
insight text, separator and attribution footer. -/
def documentation_section (prNumber timestamp insights : Str) : Str :=
  strOf "\n\n" ++ (sectionHeading ++ (strOf "\n\n" ++ (prLine prNumber timestamp ++
  (strOf "\n\n" ++ (insights ++ (strOf "\n\n---\n" ++ (footerLine ++ strOf "\n\n")))))))

/-- `_generate_default_insights`: the deterministic insight block used when
no AI text is available. -/
def generate_default_insights (pa : PRAnalysis) : Str :=
  strOf "#### " ++ emojiLens ++
  strOf " Change Analysis\n- **Files Modified**: " ++ natStr pa.filesChanged ++
  strOf "\n- **Priority**: " ++ pyTitle pa.priority ++
  strOf "\n- **Documentation Impact**: " ++
  (if pa.requiresDocumentation then strOf "High" else strOf "Low") ++
  strOf "\n\n#### " ++ emojiChart ++
  strOf " Summary\nThis PR introduces changes that " ++
  (if pa.requiresDocumentation then strOf "require" else strOf "do not require") ++
  strOf " significant documentation updates. \n\n#### " ++ emojiTarget ++
  strOf " Key Changes\n" ++
  joinWith (strOf "\n")
    ((pa.suggestedActions.getD [strOf "Code improvements and maintenance"]).map
      (fun a => strOf "- " ++ a)) ++
  strOf "\n\n#### " ++ emojiSparkle ++
  strOf " Status\nThe documentation has been automatically analyzed and updated with relevant insights."

/-- The `ai_insights` value computed by `_generate_enhanced_readme` when the
webhook path supplies an `ai_comment` (the `ai_summary` branch is not
exercised by the integrated server and `none` models a missing comment):
extraction may yield `None`, and any falsy result is replaced by the default
insights at the point of use. -/
def readme_insights (pa : PRAnalysis) (aiComment : Option LLMVal) : Str :=
  let aiInsights :=
    match aiComment with
    | some c => (extract_llm_output_readme (some c)).getD []
    | none => []
  if aiInsights.isEmpty then generate_default_insights pa else aiInsights

/-- `_generate_enhanced_readme`: build the documentation section for this PR
(`str(pr_number)`, the formatted date, and the AI or default insights) and
splice it into the current content. -/
def generate_enhanced_readme (content : Str) (pa : PRAnalysis) (aiComment : Option LLMVal)
    (timestamp : Str) : Str :=
  insert_documentation_section content
    (documentation_section (natStr pa.prNumber) timestamp (readme_insights pa aiComment))

/-- The section block at the level of line lists (what
`documentation_section … |> splitLinesCh` evaluates to for newline-free
`prNumber` and `timestamp`). -/
def docSectionLines (prNumber timestamp insights : Str) : List Str :=
  [[], [], sectionHeading, [], prLine prNumber timestamp, []] ++ splitLinesCh insights ++
  [[], strOf "---", footerLine, [], []]

/-!
## Theorems

One theorem per claim of the specification review, with witnesses for
theorems carrying hypotheses and counterexamples for corrected claims.
-/

/-- **C2** (code_bug evidence): with the webhook secret configured (the
server's default is the non-empty `'bahen'`), a POST carrying a
`pull_request` payload but *no* `X-Hub-Signature-256` header is accepted
with HTTP 200 and background processing is started, because
`verify_signature` returns `True` whenever the header is falsy; a header
with a wrong signature is rejected with 401.  The claim (and the spec, and
the code's own comment "Skip verification if no secret configured") say a
missing signature must yield 401 with no pipeline work. -/
theorem c2_missing_signature_header_accepted :
    github_webhook (fun _ _ => strOf "0badc0de") (strOf "bahen") (strOf "body")
      none (strOf "pull_request")
      (some ⟨true, strOf "o/r", strOf "opened", some ⟨some 7, none⟩⟩)
      = ⟨200, true⟩ ∧
    github_webhook (fun _ _ => strOf "0badc0de") (strOf "bahen") (strOf "body")
      (some (strOf "sha256=ffff")) (strOf "pull_request")
      (some ⟨true, strOf "o/r", strOf "opened", some ⟨some 7, none⟩⟩)
      = ⟨401, false⟩ := by
  constructor <;> rfl

/-- **C3**: a PR whose only changed file is `CHANGELOG.md`, with a diff free
of the coarse-scan keywords, is classified with `confidence_score = 0.6`
exactly (0.5 base + 0.1 documentation bump), `requires_update = false`
(the coarse flag is false and `0.6 > 0.6` fails), and priority `"none"`. -/
theorem c3_changelog_only_pr (patch : Str) (adds dels : Nat) (diff : Option Str)
    (hdiff : diffHasCoarseKeyword diff = false) :
    (analyze_pipeline [⟨strOf "CHANGELOG.md", patch, adds, dels⟩] diff).1.confidence_score = 0.6 ∧
    (analyze_pipeline [⟨strOf "CHANGELOG.md", patch, adds, dels⟩] diff).1.requires_update = false ∧
    (analyze_pipeline [⟨strOf "CHANGELOG.md", patch, adds, dels⟩] diff).2 = strOf "none" := by
  have key : assess_documentation_impact [⟨strOf "CHANGELOG.md", patch, adds, dels⟩] diff
      = ⟨false, strOf "low", [], []⟩ := by
    unfold assess_documentation_impact
    rw [hdiff]
    rfl
  have hfa : analyze_file_changes [⟨strOf "CHANGELOG.md", patch, adds, dels⟩]
      = ⟨1, [strOf "CHANGELOG.md"], [], [], []⟩ := rfl
  have hdet : determine_documentation_requirements ⟨false, strOf "low", [], []⟩
      ⟨1, [strOf "CHANGELOG.md"], [], [], []⟩
      = ⟨false, 0.6, strOf "low", [],
         [strOf "Review documentation changes for consistency"]⟩ := by
    unfold determine_documentation_requirements
    simp only [List.any_nil, List.isEmpty_nil, List.isEmpty_cons, Bool.not_true, Bool.not_false,
      if_false, if_true, Bool.false_or, List.nil_append, List.append_nil, Bool.false_eq_true,
      Bool.true_eq_false]
    norm_num
  unfold analyze_pipeline
  rw [key, hfa]
  simp only [hdet, calculate_priority, Bool.not_false, if_true]
  exact ⟨trivial, trivial, trivial⟩

/-- Witness for C3: the keyword-free hypothesis is satisfiable (a two-line
changelog diff), and the theorem evaluates as stated there. -/
theorem c3_changelog_only_pr_witness :
    diffHasCoarseKeyword (some (strOf "+ 1.2.0\n+ fixed typos")) = false ∧
    (analyze_pipeline [⟨strOf "CHANGELOG.md", strOf "+ 1.2.0", 2, 0⟩]
      (some (strOf "+ 1.2.0\n+ fixed typos"))).2 = strOf "none" :=
  ⟨by decide,
   (c3_changelog_only_pr (strOf "+ 1.2.0") 2 0 (some (strOf "+ 1.2.0\n+ fixed typos"))
     (by decide)).2.2⟩

/-- **C5**: for every classifier-pipeline output, `priority = "none"` iff
`requires_update = false`, and `priority = "critical"` implies
`impact_level = "high"` and `confidence_score > 0.8`. -/
theorem c5_priority_consistency (files : List FileChange) (diff : Option Str) :
    ((analyze_pipeline files diff).2 = strOf "none" ↔
      (analyze_pipeline files diff).1.requires_update = false) ∧
    ((analyze_pipeline files diff).2 = strOf "critical" →
      (analyze_pipeline files diff).1.impact_level = strOf "high" ∧
      (analyze_pipeline files diff).1.confidence_score > 0.8) := by
  suffices h : ∀ d : DocRequirement,
      (calculate_priority d = strOf "none" ↔ d.requires_update = false) ∧
      (calculate_priority d = strOf "critical" →
        d.impact_level = strOf "high" ∧ d.confidence_score > 0.8) from
    h (analyze_pipeline files diff).1
  intro d
  obtain ⟨ru, conf, il, rs, sa⟩ := d
  cases ru with
  | false =>
    constructor
    · simp [calculate_priority]
    · intro h
      simp only [calculate_priority, Bool.not_false, if_true] at h
      exact absurd h (by decide)
  | true =>
    unfold calculate_priority
    simp only [Bool.not_true, Bool.false_eq_true, if_false]
    constructor
    · constructor
      · intro h
        exfalso
        split_ifs at h <;> exact absurd h (by decide)
      · intro h
        exact absurd h (by decide)
    · intro h
      split_ifs at h with h1 h2 h3
      · simp only [Bool.and_eq_true, beq_iff_eq, decide_eq_true_eq] at h1
        exact h1
      · exact absurd h (by decide)
      · exact absurd h (by decide)
      · exact absurd h (by decide)

/-- **C9** (amended): every file goes to exactly the bucket picked by the
first-match category function (api beats config beats documentation beats
test beats other), where — as the code actually tests — config means
extension in `.json .yaml .yml .toml .ini` (no `.cfg`), documentation means
`.md .rst .txt` (no `.adoc`), and test means the lowercased filename
contains `test` (which subsumes the `*.test.js`/`*.test.py`/`*_test.py`
patterns). -/
theorem c9_buckets_are_first_match_categories (files : List FileChange) :
    extract_pr_changes files = {
      api_changes :=
        (files.filter (fun f => fileCategory f == Category.api)).map (toEntry · "api")
      config_changes :=
        (files.filter (fun f => fileCategory f == Category.config)).map (toEntry · "config")
      documentation_changes :=
        (files.filter (fun f => fileCategory f == Category.documentation)).map
          (toEntry · "documentation")
      test_changes :=
        (files.filter (fun f => fileCategory f == Category.test)).map (toEntry · "test")
      other_changes :=
        (files.filter (fun f => fileCategory f == Category.other)).map (toEntry · "other") } := by
  induction files with
  | nil => rfl
  | cons f fs ih =>
    show consBucket f (extract_pr_changes fs) = _
    rw [ih]
    unfold consBucket
    split_ifs with h1 h2 h3 h4
    · have hc : fileCategory f = Category.api := by
        unfold fileCategory; rw [if_pos h1]
      simp [List.filter_cons, hc]
    · have hc : fileCategory f = Category.config := by
        unfold fileCategory; rw [if_neg h1, if_pos h2]
      simp [List.filter_cons, hc]
    · have hc : fileCategory f = Category.documentation := by
        unfold fileCategory; rw [if_neg h1, if_neg h2, if_pos h3]
      simp [List.filter_cons, hc]
    · have hc : fileCategory f = Category.test := by
        unfold fileCategory; rw [if_neg h1, if_neg h2, if_neg h3, if_pos h4]
      simp [List.filter_cons, hc]
    · have hc : fileCategory f = Category.other := by
        unfold fileCategory; rw [if_neg h1, if_neg h2, if_neg h3, if_neg h4]
      simp [List.filter_cons, hc]

/-- Counterexample for C9 as originally stated: `settings.cfg` (empty patch)
is claimed `config` by the spec's §4.1 membership test, but the code's
`extract_pr_changes` extension tuple has no `.cfg`, so the file lands in
`other`. -/
theorem c9_counterexample_cfg :
    fileCategory ⟨strOf "settings.cfg", [], 1, 0⟩ = Category.other ∧
    endsAny (strOf "settings.cfg")
      [strOf ".json", strOf ".yaml", strOf ".yml", strOf ".toml", strOf ".ini", strOf ".cfg"]
      = true ∧
    extract_pr_changes [⟨strOf "settings.cfg", [], 1, 0⟩] =
      { api_changes := [], config_changes := [], documentation_changes := [],
        test_changes := [], other_changes := [⟨strOf "settings.cfg", strOf "other", 1, 0⟩] } := by
  refine ⟨by decide, by decide, ?_⟩
  rfl

/-- **C4** (amended): for a `synchronize` event with a non-empty fetched
file list and no recent loop-guard entry, the loop guard ignores the event
iff every changed filename matches a documentation pattern — where the last
pattern is, as the code tests it, the *substring* `.md` of the lowercased
name, not the suffix `.md`. -/
theorem c4_doc_only_synchronize_suppression (st : LoopGuardState) (now : Nat)
    (repo sha : Str) (n : Nat) (hasRepo : Bool) (files : List Str)
    (hrepo : repo.isEmpty = false)
    (hsplit : (splitOwnerRepo repo).isSome = true)
    (hnorecent : lookupTs (repo ++ (strOf "/" ++ natStr n)) (cleanup_old_pr_updates st now) = none)
    (hfiles : files ≠ []) :
    ((∀ f ∈ files, isDocFilename f = true) →
      (should_ignore_webhook st now (.ok files)
        ⟨hasRepo, repo, strOf "synchronize", some ⟨some n, some sha⟩⟩).1 = true) ∧
    ((∃ f ∈ files, isDocFilename f = false) →
      (should_ignore_webhook st now (.ok files)
        ⟨hasRepo, repo, strOf "synchronize", some ⟨some n, some sha⟩⟩).1 = false) := by
  obtain ⟨p, hpair⟩ := Option.isSome_iff_exists.mp hsplit
  have hne : files.isEmpty = false := by
    cases files with
    | nil => exact absurd rfl hfiles
    | cons a l => rfl
  constructor
  · intro hall
    have hfilter : files.filter (fun f => !isDocFilename f) = [] := by
      rw [List.filter_eq_nil_iff]
      intro f hf
      simp [hall f hf]
    simp [should_ignore_webhook, check_commit_files_changed, hrepo, hnorecent, hpair,
      hfilter, hne]
  · rintro ⟨f, hf, hdoc⟩
    have hfilter : (files.filter (fun f => !isDocFilename f)).isEmpty = false := by
      have hmem : f ∈ files.filter (fun f => !isDocFilename f) :=
        List.mem_filter.mpr ⟨hf, by simp [hdoc]⟩
      cases hcase : files.filter (fun f => !isDocFilename f) with
      | nil => rw [hcase] at hmem; cases hmem
      | cons a l => rfl
    simp [should_ignore_webhook, check_commit_files_changed, hrepo, hnorecent, hpair,
      hfilter, hne]

/-- Witness for C4: the spec's own instances — a commit touching only
`README.md` is ignored, one touching `README.md` and `src/app.py` is not. -/
theorem c4_doc_only_synchronize_suppression_witness :
    (should_ignore_webhook [] 1000 (.ok [strOf "README.md"])
      ⟨true, strOf "o/r", strOf "synchronize", some ⟨some 5, some (strOf "abc")⟩⟩).1 = true ∧
    (should_ignore_webhook [] 1000 (.ok [strOf "README.md", strOf "src/app.py"])
      ⟨true, strOf "o/r", strOf "synchronize", some ⟨some 5, some (strOf "abc")⟩⟩).1 = false :=
  ⟨(c4_doc_only_synchronize_suppression [] 1000 (strOf "o/r") (strOf "abc") 5 true
      [strOf "README.md"] (by decide) (by decide) (by decide) (by decide)).1
    (by decide),
   (c4_doc_only_synchronize_suppression [] 1000 (strOf "o/r") (strOf "abc") 5 true
      [strOf "README.md", strOf "src/app.py"] (by decide) (by decide) (by decide) (by decide)).2
    ⟨strOf "src/app.py", by decide, by decide⟩⟩

/-- Counterexample for C4 as originally stated: `notes.mdx` matches none of
the claim's patterns (it does not *end* in `.md`), so by the claim a
synchronize commit touching only `notes.mdx` must not be ignored; the code
matches `.md` as a substring and ignores it. -/
theorem c4_counterexample_mdx :
    (should_ignore_webhook [] 1000 (.ok [strOf "notes.mdx"])
      ⟨true, strOf "o/r", strOf "synchronize", some ⟨some 5, some (strOf "abc")⟩⟩).1 = true ∧
    (hasSub (strOf "readme.md") (lowerStr (strOf "notes.mdx")) ||
     hasSub (strOf "readme.rst") (lowerStr (strOf "notes.mdx")) ||
     hasSub (strOf "readme.txt") (lowerStr (strOf "notes.mdx")) ||
     hasSub (strOf "docs/") (lowerStr (strOf "notes.mdx")) ||
     hasSub (strOf "documentation/") (lowerStr (strOf "notes.mdx")) ||
     strEnds (lowerStr (strOf "notes.mdx")) (strOf ".md")) = false := by
  constructor <;> decide

/-- **C10**: the loop guard fails open — a failed GitHub fetch (non-200 or a
raised exception) makes `check_commit_files_changed` return `[]` and the
event is not ignored; and when the code inside the doc-only check raises
(the `repo_full_name.split('/')` unpacking), the exception is caught and the
guard still returns false. -/
theorem c10_loop_guard_fails_open (st : LoopGuardState) (now : Nat)
    (repo sha : Str) (n : Nat) (hasRepo : Bool)
    (hrepo : repo.isEmpty = false)
    (hnorecent : lookupTs (repo ++ (strOf "/" ++ natStr n)) (cleanup_old_pr_updates st now) = none) :
    check_commit_files_changed .httpErr = [] ∧
    check_commit_files_changed .exc = [] ∧
    (∀ fetch, check_commit_files_changed fetch = [] →
      (should_ignore_webhook st now fetch
        ⟨hasRepo, repo, strOf "synchronize", some ⟨some n, some sha⟩⟩).1 = false) ∧
    (splitOwnerRepo repo = none → ∀ fetch,
      (should_ignore_webhook st now fetch
        ⟨hasRepo, repo, strOf "synchronize", some ⟨some n, some sha⟩⟩).1 = false) := by
  refine ⟨rfl, rfl, ?_, ?_⟩
  · intro fetch hempty
    cases hsp : splitOwnerRepo repo with
    | none => simp [should_ignore_webhook, hrepo, hnorecent, hsp]
    | some p => simp [should_ignore_webhook, hrepo, hnorecent, hsp, hempty]
  · intro hsp fetch
    simp [should_ignore_webhook, hrepo, hnorecent, hsp]

/-- Witness for C10: a concrete malformed repo name and a failed fetch both
leave the event unignored. -/
theorem c10_loop_guard_fails_open_witness :
    (should_ignore_webhook [] 1000 .httpErr
      ⟨true, strOf "o/r", strOf "synchronize", some ⟨some 5, some (strOf "abc")⟩⟩).1 = false ∧
    (should_ignore_webhook [] 1000 (.ok [strOf "x.py"])
      ⟨true, strOf "noslash", strOf "synchronize", some ⟨some 5, some (strOf "abc")⟩⟩).1 = false :=
  ⟨(c10_loop_guard_fails_open [] 1000 (strOf "o/r") (strOf "abc") 5 true
      (by decide) (by decide)).2.2.1 .httpErr rfl,
   (c10_loop_guard_fails_open [] 1000 (strOf "noslash") (strOf "abc") 5 true
      (by decide) (by decide)).2.2.2 (by decide) (.ok [strOf "x.py"])⟩

/-- A lookup that succeeds and whose entry survives a filter still succeeds
on the filtered list. -/
lemma lookupTs_filter_keep (key : Str) (t : Nat) (p : Str × Nat → Bool) :
    ∀ st : LoopGuardState, lookupTs key st = some t → p (key, t) = true →
      lookupTs key (st.filter p) = some t := by
  intro st
  induction st with
  | nil => intro hl _; cases hl
  | cons e rest ih =>
    intro hl hp
    obtain ⟨k', t'⟩ := e
    by_cases hk : (k' == key) = true
    · have hkey : k' = key := by rwa [beq_iff_eq] at hk
      have ht' : t' = t := by
        simpa [lookupTs, hk] using hl
      subst hkey; subst ht'
      simp [List.filter_cons, hp, lookupTs]
    · have hl' : lookupTs key rest = some t := by
        simpa [lookupTs, hk] using hl
      rcases hpe : p (k', t') with _ | _
      · simpa [List.filter_cons, hpe] using ih hl' hp
      · simpa [List.filter_cons, hpe, lookupTs, hk] using ih hl' hp

/-- A key absent from every entry of a state is not found. -/
lemma lookupTs_eq_none_of_forall (key : Str) :
    ∀ st : LoopGuardState, (∀ e ∈ st, (e.1 == key) = false) → lookupTs key st = none := by
  intro st
  induction st with
  | nil => intro _; rfl
  | cons e rest ih =>
    intro h
    have he := h e (List.mem_cons_self e rest)
    obtain ⟨k', t'⟩ := e
    simp only [lookupTs, he, Bool.false_eq_true, if_false]
    exact ih (fun e' he' => h e' (List.mem_cons_of_mem _ he'))

/-- With no duplicate keys, dropping the looked-up entry by a filter makes
the lookup fail. -/
lemma lookupTs_filter_drop (key : Str) (t : Nat) (p : Str × Nat → Bool) :
    ∀ st : LoopGuardState, lookupTs key st = some t → p (key, t) = false →
      (st.map Prod.fst).Nodup → lookupTs key (st.filter p) = none := by
  intro st
  induction st with
  | nil => intro hl _ _; cases hl
  | cons e rest ih =>
    intro hl hp hnd
    obtain ⟨k', t'⟩ := e
    rw [List.map_cons, List.nodup_cons] at hnd
    by_cases hk : (k' == key) = true
    · have hkey : k' = key := by rwa [beq_iff_eq] at hk
      have ht' : t' = t := by simpa [lookupTs, hk] using hl
      have hnotin : key ∉ rest.map Prod.fst := hkey ▸ hnd.1
      rw [List.filter_cons, hkey, ht']
      simp only [hp, Bool.false_eq_true, if_false]
      refine lookupTs_eq_none_of_forall key _ (fun e' he' => ?_)
      have hmem : e' ∈ rest := List.mem_of_mem_filter he'
      have hne : e'.1 ≠ key := by
        intro hq
        exact hnotin (hq ▸ List.mem_map_of_mem Prod.fst hmem)
      simpa [beq_iff_eq] using hne
    · have hl' : lookupTs key rest = some t := by simpa [lookupTs, hk] using hl
      rcases hpe : p (k', t') with _ | _
      · simpa [List.filter_cons, hpe] using ih hl' hp hnd.2
      · simpa [List.filter_cons, hpe, lookupTs, hk] using ih hl' hp hnd.2

/-- With no duplicate keys, every entry bearing the looked-up key carries the
looked-up timestamp. -/
lemma lookupTs_nodup_unique (key : Str) (t : Nat) :
    ∀ st : LoopGuardState, lookupTs key st = some t → (st.map Prod.fst).Nodup →
      ∀ e ∈ st, e.1 = key → e.2 = t := by
  intro st
  induction st with
  | nil => intro _ _ e he; cases he
  | cons e0 rest ih =>
    intro hl hnd e he hekey
    obtain ⟨k', t'⟩ := e0
    rw [List.map_cons, List.nodup_cons] at hnd
    by_cases hk : (k' == key) = true
    · have hkey : k' = key := by rwa [beq_iff_eq] at hk
      have ht' : t' = t := by simpa [lookupTs, hk] using hl
      rcases List.mem_cons.mp he with heq | hrest
      · rw [heq]; exact ht'
      · exfalso
        have h1 : e.1 ∈ rest.map Prod.fst := List.mem_map_of_mem Prod.fst hrest
        rw [hekey, ← hkey] at h1
        exact hnd.1 h1
    · have hl' : lookupTs key rest = some t := by simpa [lookupTs, hk] using hl
      rcases List.mem_cons.mp he with heq | hrest
      · exfalso
        have : k' = key := by rw [← hekey, heq]
        exact hk (by simpa [beq_iff_eq] using this)
      · exact ih hl' hnd.2 e hrest hekey

/-- Removing elements that a later filter would drop anyway does not change
the filtered list. -/
lemma filter_skip_dropped (p q : Str × Nat → Bool) :
    ∀ st : LoopGuardState, (∀ e ∈ st, q e = false → p e = false) →
      st.filter p = (st.filter q).filter p := by
  intro st
  induction st with
  | nil => intro _; rfl
  | cons e rest ih =>
    intro h
    have hrest := ih (fun e' he' => h e' (List.mem_cons_of_mem _ he'))
    rcases hq : q e with _ | _
    · have hp : p e = false := h e (List.mem_cons_self e rest) hq
      simp [List.filter_cons, hq, hp, hrest]
    · simp only [List.filter_cons, hq, if_true]
      rcases hp : p e with _ | _ <;> simp [List.filter_cons, hp, hrest]

/-- **C6**: once processing of a PR event has recorded its timestamp under
the `{repo}/{pr}` key (the `recordProcessing` step), a second event for the
same key under 180 seconds later is ignored; more than 600 seconds later the
entry is purged on lookup and the loop guard behaves exactly as if the entry
had never been recorded. -/
theorem c6_loop_guard_window (st : LoopGuardState) (now t1 : Nat) (fetch : FetchResult)
    (repo sha : Str) (n : Nat) (hasRepo : Bool) (action : Str)
    (hrepo : repo.isEmpty = false)
    (hkey : lookupTs (repo ++ (strOf "/" ++ natStr n)) st = some t1)
    (hnodup : (st.map Prod.fst).Nodup)
    (_ht : t1 ≤ now) :
    (∀ st0 : LoopGuardState,
      lookupTs (repo ++ (strOf "/" ++ natStr n))
        (recordProcessing st0 (repo ++ (strOf "/" ++ natStr n)) t1) = some t1) ∧
    (now - t1 < 180 →
      (should_ignore_webhook st now fetch
        ⟨hasRepo, repo, action, some ⟨some n, some sha⟩⟩).1 = true) ∧
    (600 < now - t1 →
      lookupTs (repo ++ (strOf "/" ++ natStr n)) (cleanup_old_pr_updates st now) = none ∧
      should_ignore_webhook st now fetch ⟨hasRepo, repo, action, some ⟨some n, some sha⟩⟩
        = should_ignore_webhook
            (st.filter (fun e => !(e.1 == repo ++ (strOf "/" ++ natStr n)))) now fetch
            ⟨hasRepo, repo, action, some ⟨some n, some sha⟩⟩) := by
  refine ⟨?_, ?_, ?_⟩
  · intro st0
    simp [recordProcessing, lookupTs]
  · intro hrecent
    have hfresh : (fun e : Str × Nat => !decide (now - e.2 > 600)) (repo ++ (strOf "/" ++ natStr n), t1) = true := by
      have : ¬(now - t1 > 600) := by omega
      simpa using this
    have hlook : lookupTs (repo ++ (strOf "/" ++ natStr n)) (cleanup_old_pr_updates st now)
        = some t1 :=
      lookupTs_filter_keep _ _ _ st hkey hfresh
    simp [should_ignore_webhook, cleanup_old_pr_updates, hrepo, hrecent] at hlook ⊢
    simp [hlook, hrecent]
  · intro hstale
    have hdrop : (fun e : Str × Nat => !decide (now - e.2 > 600)) (repo ++ (strOf "/" ++ natStr n), t1) = false := by
      simpa using hstale
    have hnone : lookupTs (repo ++ (strOf "/" ++ natStr n)) (cleanup_old_pr_updates st now)
        = none :=
      lookupTs_filter_drop _ _ _ st hkey hdrop hnodup
    refine ⟨hnone, ?_⟩
    have hcl : cleanup_old_pr_updates st now
        = cleanup_old_pr_updates
            (st.filter (fun e => !(e.1 == repo ++ (strOf "/" ++ natStr n)))) now := by
      unfold cleanup_old_pr_updates
      refine filter_skip_dropped _ _ st (fun e he hq => ?_)
      have hekey : e.1 = repo ++ (strOf "/" ++ natStr n) := by
        have := hq
        simp only [Bool.not_eq_false'] at this
        rwa [beq_iff_eq] at this
      have het : e.2 = t1 :=
        lookupTs_nodup_unique _ _ st hkey hnodup e he hekey
      have : now - e.2 > 600 := by rw [het]; omega
      simpa using this
    unfold should_ignore_webhook
    rw [hcl]

/-- Witness for C6: a concrete recorded entry 100 seconds old suppresses the
second event; 700 seconds old it has been purged. -/
theorem c6_loop_guard_window_witness :
    (should_ignore_webhook [(strOf "o/r" ++ (strOf "/" ++ natStr 5), 100)] 200 (.ok [])
      ⟨true, strOf "o/r", strOf "opened", some ⟨some 5, some (strOf "abc")⟩⟩).1 = true ∧
    lookupTs (strOf "o/r" ++ (strOf "/" ++ natStr 5))
      (cleanup_old_pr_updates [(strOf "o/r" ++ (strOf "/" ++ natStr 5), 100)] 800) = none :=
  ⟨((c6_loop_guard_window [(strOf "o/r" ++ (strOf "/" ++ natStr 5), 100)] 200 100 (.ok [])
      (strOf "o/r") (strOf "abc") 5 true (strOf "opened")
      (by decide) (by decide) (by decide) (by decide)).2.1 (by decide)),
   ((c6_loop_guard_window [(strOf "o/r" ++ (strOf "/" ++ natStr 5), 100)] 800 100 (.ok [])
      (strOf "o/r") (strOf "abc") 5 true (strOf "opened")
      (by decide) (by decide) (by decide) (by decide)).2.2 (by decide)).1⟩

/-- A list is a prefix of itself followed by anything. -/
lemma isPre_self_append (p rest : Str) : isPre p (p ++ rest) = true := by
  induction p with
  | nil => rfl
  | cons c cs ih => simp [isPre, ih]

/-- The empty pattern occurs in every string. -/
lemma hasSub_nil (s : Str) : hasSub [] s = true := by
  cases s <;> rfl

/-- A pattern occurs at the front of `pat ++ rest`. -/
lemma hasSub_self_append (pat rest : Str) : hasSub pat (pat ++ rest) = true := by
  cases pat with
  | nil => exact hasSub_nil rest
  | cons c cs =>
    show (isPre (c :: cs) ((c :: cs) ++ rest) || hasSub (c :: cs) (cs ++ rest)) = true
    rw [isPre_self_append, Bool.true_or]

/-- Occurrence is preserved by prepending text. -/
lemma hasSub_append_right (pat s t : Str) (h : hasSub pat t = true) :
    hasSub pat (s ++ t) = true := by
  induction s with
  | nil => exact h
  | cons c cs ih => simp [hasSub, ih]

/-- A pattern occurs in any string of the shape `a ++ (pat ++ b)`. -/
lemma hasSub_sandwich (pat a b : Str) : hasSub pat (a ++ (pat ++ b)) = true :=
  hasSub_append_right pat a _ (hasSub_self_append pat b)

/-- **C8** (amended): both `_extract_llm_output` implementations handle a
plain string directly, probe a dict under their key lists (eight keys for
the bot agent; the readme agent omits `message` and `data`) with one level
of nesting, and stringify the whole value as a last resort — producing a
string for every *truthy* input; but a falsy input (`None`, empty string,
empty dict) returns `None`, not a string. -/
theorem c8_extraction_totality :
    (∀ x : LLMVal, truthyV x = true → ∃ out, extract_llm_output_bot (some x) = some out) ∧
    (∀ x : LLMVal, truthyV x = true → ∃ out, extract_llm_output_readme (some x) = some out) ∧
    (∀ x : LLMVal, truthyV x = false →
      extract_llm_output_bot (some x) = none ∧ extract_llm_output_readme (some x) = none) ∧
    (extract_llm_output_bot none = none ∧ extract_llm_output_readme none = none) ∧
    (∀ v : Str, v.isEmpty = false →
      extract_llm_output_bot (some (.s v)) = some v ∧
      extract_llm_output_readme (some (.s v)) = some v) ∧
    (∀ v : Str, v.isEmpty = false →
      extract_llm_output_bot (some (.d [(strOf "message", .s v)])) = some v ∧
      extract_llm_output_readme (some (.d [(strOf "message", .s v)]))
        = some (pyStr (.d [(strOf "message", .s v)]))) := by
  refine ⟨?_, ?_, ?_, ⟨rfl, rfl⟩, ?_, ?_⟩
  · intro x h
    cases x with
    | s v => exact ⟨v, by simp [extract_llm_output_bot, h]⟩
    | d es =>
      cases htk : tryKeys es botKeys with
      | none => exact ⟨pyStr (.d es), by simp [extract_llm_output_bot, h, htk]⟩
      | some out => exact ⟨out, by simp [extract_llm_output_bot, h, htk]⟩
  · intro x h
    cases x with
    | s v => exact ⟨v, by simp [extract_llm_output_readme, h]⟩
    | d es =>
      cases htk : tryKeys es readmeKeys with
      | none => exact ⟨pyStr (.d es), by simp [extract_llm_output_readme, h, htk]⟩
      | some out => exact ⟨out, by simp [extract_llm_output_readme, h, htk]⟩
  · intro x h
    exact ⟨by simp [extract_llm_output_bot, h], by simp [extract_llm_output_readme, h]⟩
  · intro v h
    exact ⟨by simp [extract_llm_output_bot, truthyV, h],
           by simp [extract_llm_output_readme, truthyV, h]⟩
  · intro v h
    constructor
    · cases v with
      | nil => simp at h
      | cons a t => rfl
    · rfl

/-- Witness for C8: at a concrete truthy input carrying text only under
`message`, the bot agent's extractor finds it (and the readme agent's does
not — it stringifies the dict). -/
theorem c8_extraction_totality_witness :
    extract_llm_output_bot (some (.d [(strOf "message", .s (strOf "hi"))]))
      = some (strOf "hi") ∧
    extract_llm_output_readme (some (.d [(strOf "message", .s (strOf "hi"))]))
      = some (pyStr (.d [(strOf "message", .s (strOf "hi"))])) :=
  c8_extraction_totality.2.2.2.2.2 (strOf "hi") rfl

/-- Counterexample for C8 as originally stated: the extractor is *not*
total — on the falsy inputs `{}` (and `None`, `""`) both implementations
return `None`, not a string; and the readme-agent variant does not try the
`message` key at all (it stringifies the whole dict instead of returning the
text stored under `message`). -/
theorem c8_counterexample_falsy_and_message :
    extract_llm_output_bot (some (.d [])) = none ∧
    extract_llm_output_readme (some (.d [])) = none ∧
    extract_llm_output_readme (some (.d [(strOf "message", .s (strOf "hi"))]))
      ≠ some (strOf "hi") := by
  refine ⟨rfl, rfl, ?_⟩
  intro h
  exact absurd h (by decide)

/-- **C7** (amended): whenever the LLM key is missing, the Gemini call
raises, or the response text is falsy, the generator returns the
deterministic fallback `{"output": …}` instead of propagating the error;
the fallback text is non-empty and contains the title-cased priority, it
contains the suggested-actions bullet list when documentation is required
(the maintenance template omits the list), and the README write-back's
insight extraction receives exactly that text — so generation never aborts
the pipeline. -/
theorem c7_generation_never_aborts (pa : PRAnalysis) (key : Str) (call : GeminiCall)
    (h : key.isEmpty = true ∨ call = .raises ∨ call = .returns none ∨
         call = .returns (some [])) :
    generate_ai_documentation_with_gemini key call pa = generate_ai_comment_fallback pa ∧
    (if pa.requiresDocumentation then fallbackCommentYes pa else fallbackCommentNo pa) ≠ [] ∧
    hasSub (pyTitle pa.priority)
      (if pa.requiresDocumentation then fallbackCommentYes pa else fallbackCommentNo pa)
      = true ∧
    (pa.requiresDocumentation = true →
      hasSub (bulletList (fallbackActions pa)) (fallbackCommentYes pa) = true) ∧
    readme_insights pa (some (generate_ai_comment_fallback pa))
      = (if pa.requiresDocumentation then fallbackCommentYes pa else fallbackCommentNo pa) := by
  have hne : (if pa.requiresDocumentation then fallbackCommentYes pa else fallbackCommentNo pa)
      ≠ [] := by
    cases hreq : pa.requiresDocumentation with
    | false =>
      simp only [Bool.false_eq_true, if_false]
      show fallbackCommentNo pa ≠ []
      exact List.cons_ne_nil _ _
    | true =>
      simp only [if_true]
      show fallbackCommentYes pa ≠ []
      exact List.cons_ne_nil _ _
  refine ⟨?_, hne, ?_, ?_, ?_⟩
  · rcases h with hk | hc | hc | hc
    · simp [generate_ai_documentation_with_gemini, hk]
    all_goals cases hkk : key.isEmpty <;>
      simp [generate_ai_documentation_with_gemini, hc, hkk]
  · cases hreq : pa.requiresDocumentation with
    | false =>
      simp only [Bool.false_eq_true, if_false]
      show hasSub _ (fallbackCommentNo pa) = true
      unfold fallbackCommentNo
      simp only [List.append_assoc]
      exact hasSub_sandwich _ _ _
    | true =>
      simp only [if_true]
      show hasSub _ (fallbackCommentYes pa) = true
      unfold fallbackCommentYes
      simp only [List.append_assoc]
      exact hasSub_sandwich _ _ _
  · intro hreq
    unfold fallbackCommentYes
    simp only [List.append_assoc]
    apply hasSub_append_right
    apply hasSub_append_right
    apply hasSub_append_right
    apply hasSub_append_right
    apply hasSub_append_right
    exact hasSub_self_append _ _
  · set t := if pa.requiresDocumentation then fallbackCommentYes pa else fallbackCommentNo pa
      with hts
    have hti : t.isEmpty = false := by
      cases hc : t with
      | nil => exact absurd hc hne
      | cons a l => rfl
    show readme_insights pa (some (.d [(strOf "output", .s t)])) = t
    simp [readme_insights, extract_llm_output_readme, truthyV, tryKeys, lookupKey,
      handleValue, pyStr, readmeKeys, hti]

/-- Witness for C7: a raising call with a configured key falls back, and the
fallback text reaches the README insight step. -/
theorem c7_generation_never_aborts_witness :
    generate_ai_documentation_with_gemini (strOf "k") GeminiCall.raises
      ⟨strOf "o/r", 7, strOf "high", true, 3, some [strOf "Update configuration documentation"]⟩
      = generate_ai_comment_fallback
      ⟨strOf "o/r", 7, strOf "high", true, 3, some [strOf "Update configuration documentation"]⟩ ∧
    hasSub (bulletList (fallbackActions
      ⟨strOf "o/r", 7, strOf "high", true, 3, some [strOf "Update configuration documentation"]⟩))
      (fallbackCommentYes
      ⟨strOf "o/r", 7, strOf "high", true, 3, some [strOf "Update configuration documentation"]⟩)
      = true :=
  ⟨(c7_generation_never_aborts _ (strOf "k") GeminiCall.raises (Or.inr (Or.inl rfl))).1,
   (c7_generation_never_aborts
      ⟨strOf "o/r", 7, strOf "high", true, 3, some [strOf "Update configuration documentation"]⟩
      (strOf "k") GeminiCall.raises (Or.inr (Or.inl rfl))).2.2.2.1 rfl⟩

/-- `splitLinesCh` never returns the empty list. -/
lemma splitLinesCh_ne_nil (s : Str) : splitLinesCh s ≠ [] := by
  induction s with
  | nil => simp [splitLinesCh]
  | cons c cs ih =>
    unfold splitLinesCh
    split_ifs with hc
    · simp
    · cases h : splitLinesCh cs with
      | nil => simp
      | cons l ls => simp

/-- Lines produced by `splitLinesCh` contain no newline. -/
lemma splitLinesCh_nl_notMem (s : Str) : ∀ l ∈ splitLinesCh s, '\n' ∉ l := by
  induction s with
  | nil =>
    intro l hl
    simp [splitLinesCh] at hl
    simp [hl]
  | cons c cs ih =>
    intro l hl
    unfold splitLinesCh at hl
    split_ifs at hl with hc
    · rcases List.mem_cons.mp hl with rfl | hrest
      · simp
      · exact ih l hrest
    · cases h : splitLinesCh cs with
      | nil => exact absurd h (splitLinesCh_ne_nil cs)
      | cons l0 ls =>
        rw [h] at hl
        rcases List.mem_cons.mp hl with rfl | hrest
        · intro hmem
          rcases List.mem_cons.mp hmem with heq | hmem0
          · exact hc heq.symm
          · exact ih l0 (h ▸ List.mem_cons_self l0 ls) hmem0
        · exact ih l (h ▸ List.mem_cons_of_mem l0 hrest)

/-- Splitting after a leading newline. -/
lemma splitLinesCh_cons_nl (r : Str) : splitLinesCh ('\n' :: r) = [] :: splitLinesCh r := by
  simp [splitLinesCh]

/-- One-step unfolding of `splitLinesCh` at a non-newline head. -/
lemma splitLinesCh_cons_not_nl (c : Char) (cs : Str) (hc : ¬c = '\n') :
    splitLinesCh (c :: cs) = match splitLinesCh cs with
      | [] => [[c]]
      | l :: ls => (c :: l) :: ls := by
  have h0 : splitLinesCh (c :: cs) = if c = '\n' then [] :: splitLinesCh cs
      else match splitLinesCh cs with
        | [] => [[c]]
        | l :: ls => (c :: l) :: ls := rfl
  rw [h0, if_neg hc]

/-- A newline splits an appended string into the two splits. -/
lemma splitLinesCh_append_nl (x r : Str) :
    splitLinesCh (x ++ '\n' :: r) = splitLinesCh x ++ splitLinesCh r := by
  induction x with
  | nil => simp [splitLinesCh]
  | cons c cs ih =>
    by_cases hc : c = '\n'
    · subst hc
      simp only [List.cons_append, splitLinesCh_cons_nl, ih]
    · cases h : splitLinesCh cs with
      | nil => exact absurd h (splitLinesCh_ne_nil cs)
      | cons l0 ls =>
        rw [List.cons_append, splitLinesCh_cons_not_nl c (cs ++ '\n' :: r) hc,
          splitLinesCh_cons_not_nl c cs hc, ih, h]
        simp

/-- A newline-free string is a single line. -/
lemma splitLinesCh_nl_free (s : Str) (h : '\n' ∉ s) : splitLinesCh s = [s] := by
  induction s with
  | nil => rfl
  | cons c cs ih =>
    have hc : ¬c = '\n' := fun heq => h (heq ▸ List.mem_cons_self c cs)
    have hcs : '\n' ∉ cs := fun hmem => h (List.mem_cons_of_mem c hmem)
    unfold splitLinesCh
    rw [if_neg hc, ih hcs]

/-- Splitting inverts joining for non-empty, newline-free line lists. -/
lemma splitLinesCh_joinLines (L : List Str) (hne : L ≠ [])
    (hnl : ∀ l ∈ L, '\n' ∉ l) : splitLinesCh (joinLines L) = L := by
  induction L with
  | nil => exact absurd rfl hne
  | cons x xs ih =>
    cases xs with
    | nil =>
      show splitLinesCh (joinWith (strOf "\n") [x]) = [x]
      rw [joinWith]
      exact splitLinesCh_nl_free x (hnl x (List.mem_cons_self x []))
    | cons y ys =>
      show splitLinesCh (x ++ strOf "\n" ++ joinWith (strOf "\n") (y :: ys)) = x :: y :: ys
      have hx : x ++ strOf "\n" ++ joinWith (strOf "\n") (y :: ys)
          = x ++ '\n' :: joinWith (strOf "\n") (y :: ys) := by
        simp [strOf, List.append_assoc]
      rw [hx, splitLinesCh_append_nl,
        splitLinesCh_nl_free x (hnl x (List.mem_cons_self x (y :: ys)))]
      have := ih (by simp) (fun l hl => hnl l (List.mem_cons_of_mem x hl))
      rw [show joinLines (y :: ys) = joinWith (strOf "\n") (y :: ys) from rfl] at this
      rw [this]
      rfl

/-- The PR line never contains a newline when its number and timestamp do
not. -/
lemma prLine_nl_notMem (n ts : Str) (hn : '\n' ∉ n) (hts : '\n' ∉ ts) :
    '\n' ∉ prLine n ts := by
  intro hmem
  simp only [prLine, List.append_assoc, List.mem_append] at hmem
  rcases hmem with h | h | h | h | h
  · exact absurd h (by decide)
  · exact hn h
  · exact absurd h (by decide)
  · exact hts h
  · exact absurd h (by decide)

/-- The section block string splits into the section block line list. -/
lemma splitLinesCh_documentation_section (n ts ins : Str) (hn : '\n' ∉ n)
    (hts : '\n' ∉ ts) :
    splitLinesCh (documentation_section n ts ins) = docSectionLines n ts ins := by
  have heq : documentation_section n ts ins
      = '\n' :: '\n' :: (sectionHeading ++ '\n' :: ('\n' :: (prLine n ts ++ '\n' ::
        ('\n' :: (ins ++ '\n' :: ('\n' :: (('-' :: '-' :: '-' :: []) ++ '\n' ::
        (footerLine ++ '\n' :: ('\n' :: []))))))))) := rfl
  rw [heq, splitLinesCh_cons_nl, splitLinesCh_cons_nl, splitLinesCh_append_nl,
    splitLinesCh_nl_free sectionHeading (by decide), splitLinesCh_cons_nl,
    splitLinesCh_append_nl, splitLinesCh_nl_free (prLine n ts) (prLine_nl_notMem n ts hn hts),
    splitLinesCh_cons_nl, splitLinesCh_append_nl, splitLinesCh_cons_nl,
    splitLinesCh_append_nl, splitLinesCh_nl_free ('-' :: '-' :: '-' :: []) (by decide),
    splitLinesCh_append_nl, splitLinesCh_nl_free footerLine (by decide),
    splitLinesCh_cons_nl]
  simp [docSectionLines, strOf, splitLinesCh]

/-- The PR line does not start a `## ` heading (it starts with `###`). -/
lemma prLine_not_heading (n ts : Str) : strStarts (prLine n ts) (strOf "## ") = false := rfl

/-- `dropWhile` keeps a final element that fails the predicate. -/
lemma dropWhile_append_last (p : Char → Bool) (c : Char) (hc : p c = false) :
    ∀ xs : Str, ∃ ys : Str, (xs ++ [c]).dropWhile p = ys ++ [c] := by
  intro xs
  induction xs with
  | nil => exact ⟨[], by simp [List.dropWhile, hc]⟩
  | cons x xs ih =>
    rcases hx : p x with _ | _
    · exact ⟨x :: xs, by simp [List.dropWhile, hx]⟩
    · obtain ⟨ys, hys⟩ := ih
      exact ⟨ys, by simp [List.dropWhile, hx, hys]⟩

/-- `pyStrip` keeps a non-space head character in place. -/
lemma pyStrip_cons_of_not_space (c : Char) (t : Str) (hc : isPySpace c = false) :
    ∃ u, pyStrip (c :: t) = c :: u := by
  unfold pyStrip
  rw [List.dropWhile_cons_of_neg (by simp [hc])]
  rw [show (c :: t).reverse = t.reverse ++ [c] from by simp]
  obtain ⟨ys, hys⟩ := dropWhile_append_last isPySpace c hc t.reverse
  exact ⟨ys.reverse, by rw [hys]; simp⟩

/-- A line starting with a non-space character other than `*` never strips
to the attribution footer. -/
lemma pyStrip_cons_ne_footer (c : Char) (t : Str) (hc : isPySpace c = false)
    (hstar : ¬c = '*') : (pyStrip (c :: t) == footerLine) = false := by
  obtain ⟨u, hu⟩ := pyStrip_cons_of_not_space c t hc
  rw [hu]
  have hf : ∃ ft, footerLine = '*' :: ft := ⟨_, rfl⟩
  obtain ⟨ft, hft⟩ := hf
  rw [hft]
  rw [beq_eq_false_iff_ne]
  intro h
  injection h with h1 _
  exact hstar h1

/-- No section is found among phrase-free lines. -/
lemma findSectionFrom_none (L : List Str) (h : ∀ l ∈ L, lineHasPhrase l = false) :
    ∀ i, findSectionFrom L i = none := by
  induction L with
  | nil => intro i; rfl
  | cons l ls ih =>
    intro i
    simp only [findSectionFrom, h l (List.mem_cons_self l ls), Bool.false_eq_true, if_false]
    exact ih (fun l' hl' => h l' (List.mem_cons_of_mem l hl')) (i + 1)

/-- The section search skips a phrase-free prefix. -/
lemma findSectionFrom_append (L1 L2 : List Str) (h : ∀ l ∈ L1, lineHasPhrase l = false) :
    ∀ i, findSectionFrom (L1 ++ L2) i = findSectionFrom L2 (i + L1.length) := by
  induction L1 with
  | nil => intro i; simp [findSectionFrom]
  | cons l ls ih =>
    intro i
    rw [List.cons_append]
    simp only [findSectionFrom, h l (List.mem_cons_self l ls), Bool.false_eq_true, if_false]
    rw [ih (fun l' hl' => h l' (List.mem_cons_of_mem l hl')) (i + 1)]
    congr 1
    simp
    omega

/-- The end scan skips lines that neither start a `## ` heading nor strip to
the footer. -/
lemma findEndGo_skip (i : Nat) (pre : List Str)
    (h : ∀ l ∈ pre, strStarts l (strOf "## ") = false ∧ (pyStrip l == footerLine) = false) :
    ∀ rest j, findEndGo i (pre ++ rest) j = findEndGo i rest (j + pre.length) := by
  induction pre with
  | nil => intro rest j; simp [findEndGo]
  | cons l ls ih =>
    intro rest j
    have hl := h l (List.mem_cons_self l ls)
    rw [List.cons_append]
    simp only [findEndGo, hl.1, hl.2, Bool.false_and, Bool.false_eq_true, if_false]
    rw [ih (fun l' hl' => h l' (List.mem_cons_of_mem l hl')) rest (j + 1)]
    congr 1
    simp
    omega

/-- The end scan stops just past the footer sentinel. -/
lemma findEndGo_footer (i : Nat) (rest : List Str) (j : Nat) :
    findEndGo i (footerLine :: rest) j = j + 1 := by
  simp only [findEndGo, (by decide : strStarts footerLine (strOf "## ") = false),
    (by decide : (pyStrip footerLine == footerLine) = true), Bool.false_and,
    Bool.false_eq_true, if_false, if_true]

/-- With no existing section, `insertDocLines` splices the block at the
computed insert position. -/
lemma insertDocLines_insert (L B : List Str) (hL : ∀ l ∈ L, lineHasPhrase l = false) :
    insertDocLines L B = L.take (insertIdx L) ++ B ++ L.drop (insertIdx L) := by
  unfold insertDocLines
  rw [findSectionFrom_none L hL 0]

/-- `insert_documentation_section` at line level: split, splice, join, split
is splice. -/
lemma splitLinesCh_insert_documentation_section (content sec : Str) :
    splitLinesCh (insert_documentation_section content sec)
      = insertDocLines (splitLinesCh content) (splitLinesCh sec) := by
  unfold insert_documentation_section
  apply splitLinesCh_joinLines
  · cases hf : findSectionFrom (splitLinesCh content) 0 with
    | none =>
      simp only [insertDocLines, hf]
      intro h
      rw [List.append_assoc, List.append_eq_nil] at h
      rw [List.append_eq_nil] at h
      exact splitLinesCh_ne_nil sec h.2.1
    | some i =>
      simp only [insertDocLines, hf]
      intro h
      rw [List.append_assoc, List.append_eq_nil] at h
      rw [List.append_eq_nil] at h
      exact splitLinesCh_ne_nil sec h.2.1
  · intro l hl
    have hmem : l ∈ splitLinesCh content ∨ l ∈ splitLinesCh sec := by
      rcases hf : findSectionFrom (splitLinesCh content) 0 with _ | i <;>
        simp only [insertDocLines, hf] at hl <;>
        rw [List.append_assoc, List.mem_append, List.mem_append] at hl
      · rcases hl with h | h | h
        · exact Or.inl (List.take_subset _ _ h)
        · exact Or.inr h
        · exact Or.inl (List.drop_subset _ _ h)
      · rcases hl with h | h | h
        · exact Or.inl (List.take_subset _ _ h)
        · exact Or.inr h
        · exact Or.inl (List.drop_subset _ _ h)
    rcases hmem with h | h
    · exact splitLinesCh_nl_notMem content l h
    · exact splitLinesCh_nl_notMem sec l h

/-- Replacing an existing generated section: on content of the shape
`A ++ block(n1, ts1, ins1) ++ C` with `A` phrase-free and well-behaved
first insights, the splice replaces the whole first block (up to its
surrounding blank lines) with the new block. -/
lemma insertDocLines_replace (A C : List Str) (n1 ts1 ins1 : Str) (B2 : List Str)
    (hA : ∀ l ∈ A, lineHasPhrase l = false)
    (hins1 : ∀ l ∈ splitLinesCh ins1,
      strStarts l (strOf "## ") = false ∧ (pyStrip l == footerLine) = false) :
    insertDocLines (A ++ (docSectionLines n1 ts1 ins1 ++ C)) B2
      = (A ++ [[]]) ++ (B2 ++ ([[], []] ++ C)) := by
  set m := (splitLinesCh ins1).length with hm
  have hPfoot : (pyStrip (prLine n1 ts1) == footerLine) = false := by
    obtain ⟨tl, htl⟩ : ∃ tl, prLine n1 ts1 = '#' :: tl := ⟨_, rfl⟩
    rw [htl]
    exact pyStrip_cons_ne_footer '#' tl (by decide) (by decide)
  have hfind : findSectionFrom (A ++ (docSectionLines n1 ts1 ins1 ++ C)) 0
      = some (A.length + 2) := by
    rw [findSectionFrom_append A _ hA 0]
    have hshape : docSectionLines n1 ts1 ins1 ++ C
        = [] :: [] :: sectionHeading ::
          ([[], prLine n1 ts1, []] ++ splitLinesCh ins1 ++
            ([[], strOf "---", footerLine, [], []] ++ C)) := by
      simp [docSectionLines]
    rw [hshape]
    simp only [findSectionFrom, (by decide : lineHasPhrase ([] : Str) = false),
      (by decide : lineHasPhrase sectionHeading = true), Bool.false_eq_true, if_false, if_true,
      Option.some.injEq]
    omega
  have hgetD : (A ++ (docSectionLines n1 ts1 ins1 ++ C)).getD (A.length + 2 - 1) ([] : Str)
      = [] := by
    rw [show A.length + 2 - 1 = A.length + 1 from rfl,
      List.getD_append_right _ _ _ _ (by omega)]
    have h1 : A.length + 1 - A.length = 1 := by omega
    rw [h1]
    simp [docSectionLines]
  have hpre : ∀ l ∈ ([[], prLine n1 ts1, []] ++ splitLinesCh ins1 ++ [[], strOf "---"]),
      strStarts l (strOf "## ") = false ∧ (pyStrip l == footerLine) = false := by
    intro l hl
    simp only [List.append_assoc, List.mem_append, List.mem_cons, List.not_mem_nil,
      or_false] at hl
    rcases hl with (h | h | h) | h | (h | h)
    · rw [h]; exact ⟨by decide, by decide⟩
    · rw [h]; exact ⟨prLine_not_heading n1 ts1, hPfoot⟩
    · rw [h]; exact ⟨by decide, by decide⟩
    · exact hins1 l h
    · rw [h]; exact ⟨by decide, by decide⟩
    · rw [h]; exact ⟨by decide, by decide⟩
  have hend : findEnd (A ++ (docSectionLines n1 ts1 ins1 ++ C)) (A.length + 2)
      = A.length + (m + 9) := by
    unfold findEnd
    have hdrop : (A ++ (docSectionLines n1 ts1 ins1 ++ C)).drop (A.length + 2 + 1)
        = ([[], prLine n1 ts1, []] ++ splitLinesCh ins1 ++ [[], strOf "---"])
          ++ (footerLine :: ([[], []] ++ C)) := by
      rw [List.drop_append_eq_append_drop,
        List.drop_eq_nil_of_le (by omega : A.length ≤ A.length + 2 + 1)]
      have h2 : A.length + 2 + 1 - A.length = 3 := by omega
      rw [h2]
      simp [docSectionLines]
    rw [hdrop, findEndGo_skip (A.length + 2) _ hpre, findEndGo_footer]
    simp only [List.length_append, List.length_cons, List.length_nil, ← hm]
    omega
  unfold insertDocLines
  rw [hfind]
  simp only [Option.some.injEq]
  have hcond : (decide (A.length + 2 > 0) &&
      (pyStrip ((A ++ (docSectionLines n1 ts1 ins1 ++ C)).getD (A.length + 2 - 1) ([] : Str))
        == ([] : Str))) = true := by
    rw [hgetD]
    rw [show (pyStrip ([] : Str) == ([] : Str)) = true from rfl, Bool.and_true]
    simp
  rw [hcond]
  simp only [if_true]
  rw [hend]
  have htake : (A ++ (docSectionLines n1 ts1 ins1 ++ C)).take (A.length + 2 - 1)
      = A ++ [[]] := by
    rw [show A.length + 2 - 1 = A.length + 1 from rfl, List.take_append_eq_append_take,
      List.take_of_length_le (by omega : A.length ≤ A.length + 1)]
    have h1 : A.length + 1 - A.length = 1 := by omega
    rw [h1]
    simp [docSectionLines]
  have hdropF : (A ++ (docSectionLines n1 ts1 ins1 ++ C)).drop (A.length + (m + 9))
      = [[], []] ++ C := by
    rw [List.drop_append_eq_append_drop,
      List.drop_eq_nil_of_le (by omega : A.length ≤ A.length + (m + 9))]
    have h1 : A.length + (m + 9) - A.length = m + 9 := by omega
    rw [h1]
    have hshape : docSectionLines n1 ts1 ins1 ++ C
        = [[], [], sectionHeading, [], prLine n1 ts1, []]
          ++ (splitLinesCh ins1 ++ ([[], strOf "---", footerLine, [], []] ++ C)) := by
      simp [docSectionLines]
    rw [hshape, List.drop_append_eq_append_drop,
      List.drop_eq_nil_of_le
        (by simp only [List.length_cons, List.length_nil]; omega)]
    have h2 : m + 9 - ([[], [], sectionHeading, [], prLine n1 ts1, []] : List Str).length
        = m + 3 := by simp only [List.length_cons, List.length_nil]; omega
    rw [h2, List.drop_append_eq_append_drop,
      List.drop_eq_nil_of_le (by omega : (splitLinesCh ins1).length ≤ m + 3)]
    have h3 : m + 3 - (splitLinesCh ins1).length = 3 := by omega
    rw [h3]
    simp
  rw [htake, hdropF]
  simp [List.append_assoc]

/-- The generated block contains exactly one line with the section phrase
(its heading), provided the PR line and the insight lines are phrase-free. -/
lemma countP_docSectionLines (n ts ins : Str)
    (hp : lineHasPhrase (prLine n ts) = false)
    (hins : ∀ l ∈ splitLinesCh ins, lineHasPhrase l = false) :
    (docSectionLines n ts ins).countP (fun l => lineHasPhrase l) = 1 := by
  have hzero : (splitLinesCh ins).countP (fun l => lineHasPhrase l) = 0 :=
    List.countP_eq_zero.mpr (fun l hl => by simp [hins l hl])
  simp [docSectionLines, List.countP_append, List.countP_cons, hzero, hp,
    (by decide : lineHasPhrase ([] : Str) = false),
    (by decide : lineHasPhrase sectionHeading = true),
    (by decide : lineHasPhrase (strOf "---") = false),
    (by decide : lineHasPhrase footerLine = false)]

/-- **C1** (amended): for every current README content none of whose lines
contains "Recent Documentation Updates", with newline-free PR-number/date
strings, first-round insights whose lines neither start a `## ` heading nor
strip to the attribution footer, and second-round insights and PR line free
of the phrase, applying the README section merge twice with different PR
numbers yields the original content with exactly the *second* PR's block
spliced at the insert position (wrapped in the blocks' blank padding), and
exactly one line of the result contains the phrase: the second application
replaces the whole span of the first block rather than adding a section.
(Content that already contains the phrase can defeat the invariant — see
the counterexample.) -/
theorem c1_readme_section_replace (content : Str) (pa1 pa2 : PRAnalysis)
    (com1 com2 : Option LLMVal) (ts1 ts2 : Str)
    (_hprs : pa1.prNumber ≠ pa2.prNumber)
    (hcontent : ∀ l ∈ splitLinesCh content, lineHasPhrase l = false)
    (hts1 : '\n' ∉ ts1) (hts2 : '\n' ∉ ts2)
    (hn1 : '\n' ∉ natStr pa1.prNumber) (hn2 : '\n' ∉ natStr pa2.prNumber)
    (hins1 : ∀ l ∈ splitLinesCh (readme_insights pa1 com1),
      strStarts l (strOf "## ") = false ∧ (pyStrip l == footerLine) = false)
    (hins2 : ∀ l ∈ splitLinesCh (readme_insights pa2 com2), lineHasPhrase l = false)
    (hp2 : lineHasPhrase (prLine (natStr pa2.prNumber) ts2) = false) :
    splitLinesCh (generate_enhanced_readme
        (generate_enhanced_readme content pa1 com1 ts1) pa2 com2 ts2)
      = ((splitLinesCh content).take (insertIdx (splitLinesCh content)) ++ [[]])
        ++ (docSectionLines (natStr pa2.prNumber) ts2 (readme_insights pa2 com2)
          ++ ([[], []] ++ (splitLinesCh content).drop (insertIdx (splitLinesCh content)))) ∧
    (splitLinesCh (generate_enhanced_readme
        (generate_enhanced_readme content pa1 com1 ts1) pa2 com2 ts2)).countP
      (fun l => lineHasPhrase l) = 1 := by
  have hgen2 : ∀ s : Str, splitLinesCh (generate_enhanced_readme s pa2 com2 ts2)
      = insertDocLines (splitLinesCh s)
          (docSectionLines (natStr pa2.prNumber) ts2 (readme_insights pa2 com2)) := by
    intro s
    unfold generate_enhanced_readme
    rw [splitLinesCh_insert_documentation_section,
      splitLinesCh_documentation_section _ _ _ hn2 hts2]
  have happ1 : splitLinesCh (generate_enhanced_readme content pa1 com1 ts1)
      = (splitLinesCh content).take (insertIdx (splitLinesCh content))
        ++ (docSectionLines (natStr pa1.prNumber) ts1 (readme_insights pa1 com1)
            ++ (splitLinesCh content).drop (insertIdx (splitLinesCh content))) := by
    unfold generate_enhanced_readme
    rw [splitLinesCh_insert_documentation_section,
      splitLinesCh_documentation_section _ _ _ hn1 hts1,
      insertDocLines_insert _ _ hcontent, List.append_assoc]
  have hA : ∀ l ∈ (splitLinesCh content).take (insertIdx (splitLinesCh content)),
      lineHasPhrase l = false :=
    fun l hl => hcontent l (List.take_subset _ _ hl)
  rw [hgen2, happ1,
    insertDocLines_replace
      ((splitLinesCh content).take (insertIdx (splitLinesCh content)))
      ((splitLinesCh content).drop (insertIdx (splitLinesCh content)))
      (natStr pa1.prNumber) ts1 (readme_insights pa1 com1)
      (docSectionLines (natStr pa2.prNumber) ts2 (readme_insights pa2 com2))
      hA hins1]
  refine ⟨rfl, ?_⟩
  have hAz : ((splitLinesCh content).take (insertIdx (splitLinesCh content))).countP
      (fun l => lineHasPhrase l) = 0 :=
    List.countP_eq_zero.mpr (fun l hl => by simp [hA l hl])
  have hCz : ((splitLinesCh content).drop (insertIdx (splitLinesCh content))).countP
      (fun l => lineHasPhrase l) = 0 :=
    List.countP_eq_zero.mpr
      (fun l hl => by simp [hcontent l (List.drop_subset _ _ hl)])
  simp [List.countP_append, List.countP_cons, hAz, hCz,
    countP_docSectionLines _ _ _ hp2 hins2,
    (by decide : lineHasPhrase ([] : Str) = false)]

set_option maxRecDepth 400000 in
/-- Witness for C1: a concrete README through two concrete applications. -/
theorem c1_readme_section_replace_witness :
    (splitLinesCh (generate_enhanced_readme
        (generate_enhanced_readme (strOf "# My Project\n\nSome intro.\n\n## Usage\nRun it.")
          ⟨strOf "o/r", 1, strOf "high", true, 2, some [strOf "a"]⟩
          (some (.s (strOf "Insight one."))) (strOf "2025-01-01"))
        ⟨strOf "o/r", 2, strOf "high", true, 2, some [strOf "a"]⟩
        (some (.s (strOf "Insight two."))) (strOf "2025-01-02"))).countP
      (fun l => lineHasPhrase l) = 1 :=
  (c1_readme_section_replace (strOf "# My Project\n\nSome intro.\n\n## Usage\nRun it.")
    ⟨strOf "o/r", 1, strOf "high", true, 2, some [strOf "a"]⟩
    ⟨strOf "o/r", 2, strOf "high", true, 2, some [strOf "a"]⟩
    (some (.s (strOf "Insight one."))) (some (.s (strOf "Insight two.")))
    (strOf "2025-01-01") (strOf "2025-01-02")
    (by decide) (by decide) (by decide) (by decide) (by decide) (by decide)
    (by decide) (by decide) (by decide)).2

set_option maxRecDepth 400000 in
/-- Counterexample for C1 as originally stated: on a README that already
mentions "Recent Documentation Updates" in ordinary text around a `## `
heading, two applications leave *two* lines containing the phrase — the
unqualified "for every current README content" fails. -/
theorem c1_counterexample_existing_phrase :
    (splitLinesCh (generate_enhanced_readme
        (generate_enhanced_readme
          (strOf "A Recent Documentation Updates\nx\n## S\ny Recent Documentation Updates")
          ⟨strOf "o/r", 1, strOf "high", true, 2, some [strOf "a"]⟩
          (some (.s (strOf "I"))) (strOf "2025-01-01"))
        ⟨strOf "o/r", 2, strOf "high", true, 2, some [strOf "a"]⟩
        (some (.s (strOf "I"))) (strOf "2025-01-02"))).countP
      (fun l => lineHasPhrase l) = 2 := by
  decide

set_option maxRecDepth 40000 in
/-- Counterexample for C7 as originally stated: when the analysis does not
require documentation, the fallback template contains no suggested-actions
list — extraction of the generated output yields a non-empty comment that
does not contain the (non-empty) suggested action. -/
theorem c7_counterexample_no_actions :
    ((extract_llm_output_readme (some (generate_ai_documentation_with_gemini []
        GeminiCall.raises ⟨strOf "o/r", 7, strOf "medium", false, 3,
          some [strOf "Update configuration documentation"]⟩))).getD []) ≠ [] ∧
    hasSub (strOf "Update configuration documentation")
      ((extract_llm_output_readme (some (generate_ai_documentation_with_gemini []
        GeminiCall.raises ⟨strOf "o/r", 7, strOf "medium", false, 3,
          some [strOf "Update configuration documentation"]⟩))).getD []) = false := by
  constructor
  · decide
  · decide

end DocuSync
